import Mathlib

/-!
The device enumeration cache of nx-v4l2.

A shallow embedding of the enumeration and cache part of `nx-v4l2.c`
(built without `NOT_USED`, so the sub-device categories are present), and
theorems about it.

Conventions of the embedding.

* A `char` buffer is a `List Nat` of bytes.  A C string read from a buffer is
  `cstr`: the bytes before the first NUL.
* The static table `entries[nx_v4l2_max][MAX_CAMERA_INSTANCE_NUM]` is a function
  of the two indices; every access checks the indices against the declared
  bounds.
* A function whose C execution may be undefined (an access outside the table,
  a write past the end of a buffer, a `%d` conversion that does not fit an
  `int`) returns an `Option`; `none` stands for undefined behaviour.
* Everything the code asks the operating system is answered by an `Env`.
-/

namespace NxV4l2

/-! ## Constants -/

def DEVNAME_SIZE : Nat := 64
def DEVNODE_SIZE : Nat := 64
def SYSFS_PATH_SIZE : Nat := 128
def MAX_CAMERA_INSTANCE_NUM : Nat := 12
def MAX_SUPPORTED_RESOLUTION : Nat := 10

/-- Largest value of a C `int` (32 bit). -/
def INT_MAX : Int := 2147483647

/-- Value of `EINVAL` in `errno.h`. -/
def EINVAL : Int := 22
/-- Value of `ENODEV` in `errno.h`. -/
def ENODEV : Int := 19

/-- Modelled from the spec: the enumeration of logical categories declared in
`nx-v4l2.h` (sensor, clipper, decimator and csi sub-devices, clipper and
decimator video, mpegts video, and the upper bound), numbered in that order. -/
def nx_sensor_subdev : Int := 0
/-- Modelled from the spec: second category of the enumeration in `nx-v4l2.h`. -/
def nx_clipper_subdev : Int := 1
/-- Modelled from the spec: third category of the enumeration in `nx-v4l2.h`. -/
def nx_decimator_subdev : Int := 2
/-- Modelled from the spec: fourth category of the enumeration in `nx-v4l2.h`. -/
def nx_csi_subdev : Int := 3
/-- Modelled from the spec: fifth category of the enumeration in `nx-v4l2.h`. -/
def nx_clipper_video : Int := 4
/-- Modelled from the spec: sixth category of the enumeration in `nx-v4l2.h`. -/
def nx_decimator_video : Int := 5
/-- Modelled from the spec: seventh category of the enumeration in `nx-v4l2.h`. -/
def nx_mpegts_video : Int := 6
/-- Modelled from the spec: the fixed upper bound closing the enumeration in
`nx-v4l2.h`; the number of rows of the table. -/
def nx_v4l2_max : Int := 7

/-! ## C strings -/

/-- Bytes of an ASCII string literal. -/
def bytes (s : String) : List Nat := s.toList.map Char.toNat

/-- The C string held in a buffer: the bytes before the first NUL. -/
def cstr (buf : List Nat) : List Nat := buf.takeWhile (fun b => b != 0)

/-- Result of `strcmp(a, b) == 0`. -/
def strcmp_eq (a b : List Nat) : Bool := cstr a == cstr b

/-- Result of `strncmp(a, b, n) == 0`: the strings agree on their first `n`
characters, a shorter string ending the comparison. -/
def strncmp_eq (a b : List Nat) (n : Nat) : Bool := (cstr a).take n == (cstr b).take n

/-- Value of `strlen`. -/
def strlen (a : List Nat) : Nat := (cstr a).length

/-- A buffer of `n` NUL bytes. -/
def zeros (n : Nat) : List Nat := List.replicate n 0

/-- The call `strcpy(dst, src)` into a buffer of `size` bytes: the string and its
terminating NUL overwrite the start of `dst`, the bytes behind them stay.
Undefined when the string and its NUL do not fit. -/
def strcpy (size : Nat) (dst src : List Nat) : Option (List Nat) :=
  let s := cstr src
  if s.length + 1 ≤ size then some (s ++ 0 :: dst.drop (s.length + 1)) else none

/-- The call `strncpy(dst, src, n)` where `dst` has exactly `n` bytes: at most `n`
characters of the string are copied and the rest of `dst` is filled with NUL. -/
def strncpy (n : Nat) (src : List Nat) : List Nat :=
  let s := (cstr src).take n
  s ++ zeros (n - s.length)

/-- Decimal digit test on a byte. -/
def isDigit (b : Nat) : Bool := 48 ≤ b && b ≤ 57

/-- Value of a run of decimal digits. -/
def decimal (ds : List Nat) : Nat := ds.foldl (fun acc d => acc * 10 + (d - 48)) 0

/-- Decimal digits of a number, as bytes. -/
def digits (n : Nat) : List Nat := (Nat.toDigits 10 n).map Char.toNat

/-! ## Data model -/

/-- Modelled from the spec: `struct nx_v4l2_frame_info` of `nx-v4l2.h`, one
supported resolution: its position in the probe sequence, width, height and the
pair of frame-interval denominators `interval[0]` (min) and `interval[1]` (max). -/
structure nx_v4l2_frame_info where
  index : Int
  width : Nat
  height : Nat
  interval : Nat × Nat
  deriving DecidableEq, Repr

/-- The all-zero frame info of static storage. -/
def frame_zero : nx_v4l2_frame_info := ⟨0, 0, 0, (0, 0)⟩

/-- The C `struct nx_v4l2_entry`. -/
structure nx_v4l2_entry where
  exist : Bool
  is_mipi : Bool
  interlaced : Bool
  devname : List Nat
  sensorname : List Nat
  devnode : List Nat
  list_count : Int
  lists : Nat → nx_v4l2_frame_info

/-- The all-zero entry of static storage. -/
def entry_zero : nx_v4l2_entry :=
  { exist := false, is_mipi := false, interlaced := false,
    devname := zeros DEVNAME_SIZE, sensorname := zeros DEVNAME_SIZE,
    devnode := zeros DEVNODE_SIZE, list_count := 0, lists := fun _ => frame_zero }

/-- The C `struct nx_v4l2_entry_cache`, the process-wide table.  The field
`scans` is a ghost counter of the completed runs of `enum_all_v4l2_devices`; it
is not part of the C structure. -/
structure nx_v4l2_entry_cache where
  cached : Bool
  entries : Nat → Nat → nx_v4l2_entry
  scans : Nat

/-- The cache at process start: `.cached = false`, the rest zero. -/
def cache_init : nx_v4l2_entry_cache :=
  { cached := false, entries := fun _ _ => entry_zero, scans := 0 }

/-- A value of type `struct nx_v4l2_entry *`: `NULL`, or the address
`&cache->entries[type][module]`, kept as the two indices it was computed from. -/
inductive EntryPtr where
  | null : EntryPtr
  | slot (type module : Int) : EntryPtr
  deriving DecidableEq, Repr

/-- Indices inside the declared bounds of the table. -/
def in_bounds (type module : Int) : Bool :=
  decide (0 ≤ type) && decide (type < nx_v4l2_max) &&
    decide (0 ≤ module) && decide (module < (MAX_CAMERA_INSTANCE_NUM : Int))

/-- Reading `cache->entries[type][module]`; undefined outside the table. -/
def read_entry (c : nx_v4l2_entry_cache) (type module : Int) : Option nx_v4l2_entry :=
  if in_bounds type module then some (c.entries type.toNat module.toNat) else none

/-- Storing `e` into `cache->entries[type][module]`; undefined outside the table. -/
def write_entry (c : nx_v4l2_entry_cache) (type module : Int) (e : nx_v4l2_entry) :
    Option nx_v4l2_entry_cache :=
  if in_bounds type module then
    some { c with entries := fun t m =>
      if t = type.toNat ∧ m = module.toNat then e else c.entries t m }
  else none

/-- The C `find_v4l2_entry`: the address of a table slot, never `NULL`, computed
without any check of the indices. -/
def find_v4l2_entry (type module : Int) : EntryPtr := EntryPtr.slot type module

/-! ## Name classifier -/

def NX_CLIPPER_SUBDEV_NAME : List Nat := bytes "nx-clipper"
def NX_DECIMATOR_SUBDEV_NAME : List Nat := bytes "nx-decimator"
def NX_CSI_SUBDEV_NAME : List Nat := bytes "nx-csi"
def NX_MPEGTS_VIDEO_NAME : List Nat := bytes "VIDEO MPEGTS"
def NX_CLIPPER_VIDEO_NAME : List Nat := bytes "VIDEO CLIPPER"
def NX_DECIMATOR_VIDEO_NAME : List Nat := bytes "VIDEO DECIMATOR"

/-- The C `get_type_by_name`. -/
def get_type_by_name (type_name : List Nat) : Int :=
  if strncmp_eq type_name NX_CLIPPER_SUBDEV_NAME (strlen NX_CLIPPER_SUBDEV_NAME) then
    nx_clipper_subdev
  else if strncmp_eq type_name NX_DECIMATOR_SUBDEV_NAME (strlen NX_DECIMATOR_SUBDEV_NAME) then
    nx_decimator_subdev
  else if strncmp_eq type_name NX_CSI_SUBDEV_NAME (strlen NX_CSI_SUBDEV_NAME) then
    nx_csi_subdev
  else if strncmp_eq type_name NX_MPEGTS_VIDEO_NAME (strlen NX_MPEGTS_VIDEO_NAME) then
    nx_mpegts_video
  else if strncmp_eq type_name NX_CLIPPER_VIDEO_NAME (strlen NX_CLIPPER_VIDEO_NAME) then
    nx_clipper_video
  else if strncmp_eq type_name NX_DECIMATOR_VIDEO_NAME (strlen NX_DECIMATOR_VIDEO_NAME) then
    nx_decimator_video
  else
    -EINVAL

/-- The loop of the C `get_sensor_info` from index `i` on, `fuel` iterations left:
the first existing sensor entry whose stored name is a leading part of `name`. -/
def get_sensor_info_from (c : nx_v4l2_entry_cache) (name : List Nat) :
    Nat → Nat → Option Nat
  | 0, _ => none
  | fuel + 1, i =>
    let e := c.entries nx_sensor_subdev.toNat i
    if e.exist && strncmp_eq name e.devname (strlen e.devname) then some i
    else get_sensor_info_from c name fuel (i + 1)

/-- The C `get_sensor_info`: the returned type and the value left in `*module`. -/
def get_sensor_info (c : nx_v4l2_entry_cache) (name : List Nat) (module : Int) : Int × Int :=
  match get_sensor_info_from c name MAX_CAMERA_INSTANCE_NUM 0 with
  | some i => (nx_sensor_subdev, (i : Int))
  | none => (-ENODEV, module)

/-- The call `sscanf(name, "%[^0-9]%d", type_name, &module)` on a zeroed
`type_name[DEVNAME_SIZE]`: the leading run of non-digits goes to `type_name`, the
run of digits behind it to `module`.  A conversion that matches nothing ends the
call and leaves its target as it was (`module0` is the value the uninitialised
local `module` happens to hold).  Undefined when the non-digit run and its NUL do
not fit `type_name`, or when the number does not fit an `int`. -/
def sscanf_name (name : List Nat) (module0 : Int) : Option (List Nat × Int) :=
  let s := cstr name
  let type_name := s.takeWhile (fun b => !isDigit b)
  if type_name = [] then some ([], module0)
  else if DEVNAME_SIZE < type_name.length + 1 then none
  else
    let ds := (s.drop type_name.length).takeWhile isDigit
    if ds = [] then some (type_name, module0)
    else if INT_MAX < (decimal ds : Int) then none
    else some (type_name, (decimal ds : Int))

/-- The C `find_v4l2_entry_by_name`.  `module0` is the indeterminate initial
value of the local `module`. -/
def find_v4l2_entry_by_name (c : nx_v4l2_entry_cache) (name : List Nat) (module0 : Int) :
    Option EntryPtr :=
  match sscanf_name name module0 with
  | none => none
  | some (type_name, module) =>
    let type := get_type_by_name type_name
    if type < 0 then
      let r := get_sensor_info c name module
      if r.1 < 0 then some EntryPtr.null
      else some (find_v4l2_entry r.1 r.2)
    else some (find_v4l2_entry type module)

/-- The six name prefixes known to the classifier, each with its category. -/
def known_prefixes : List (List Nat × Int) :=
  [(NX_CLIPPER_SUBDEV_NAME, nx_clipper_subdev),
   (NX_DECIMATOR_SUBDEV_NAME, nx_decimator_subdev),
   (NX_CSI_SUBDEV_NAME, nx_csi_subdev),
   (NX_MPEGTS_VIDEO_NAME, nx_mpegts_video),
   (NX_CLIPPER_VIDEO_NAME, nx_clipper_video),
   (NX_DECIMATOR_VIDEO_NAME, nx_decimator_video)]

/-! ## Environment -/

/-- What reading a small attribute file gives: the `open` fails, the `read`
fails, or the bytes of the file. -/
inductive FileRead where
  | open_failed : FileRead
  | read_failed : FileRead
  | data (content : List Nat) : FileRead
  deriving DecidableEq, Repr

/-- An opened video device, as far as the prober asks it: the answer to
`VIDIOC_ENUM_FRAMESIZES` at an index (maximal width and height of the step-wise
size) and to `VIDIOC_ENUM_FRAMEINTERVALS` at an index, width and height (the
denominator of the discrete interval); `none` is a failing `ioctl`. -/
structure Device where
  enum_framesizes : Int → Option (Nat × Nat)
  enum_frameintervals : Int → Nat → Nat → Option Nat

/-- One entry returned by `scandir` on `/sys/class/video4linux`: its `d_name`,
whether `lstat` succeeds on it, what reading `<d_name>/name` gives, and the value
the uninitialised local `module` of `find_v4l2_entry_by_name` holds when this
entry is resolved.  That value is indeterminate: it is no part of the device
environment and may differ from one scan to the next, so two scans of the same
environment are compared through `same_environment`, which ignores it. -/
structure DirItem where
  d_name : List Nat
  lstat_ok : Bool
  name_attr : FileRead
  stack_module : Int

/-- The operating system as the library sees it. -/
structure Env where
  /-- reading `/sys/devices/platform/camerasensor<i>/info` -/
  sensor_info : Nat → FileRead
  /-- the sorted result of `scandir(".")` in `/sys/class/video4linux` -/
  dir : List DirItem
  /-- the call `open(path, O_RDONLY)` on a device node -/
  open_rd : List Nat → Option Device
  /-- the call `open(path, O_RDWR)` on a device node: the descriptor -/
  open_rw : List Nat → Option Nat

/-- The call `open(path, O_RDWR)`: an empty path names no file (`ENOENT`). -/
def sys_open_rw (env : Env) (path : List Nat) : Int :=
  if cstr path = [] then -1
  else match env.open_rw (cstr path) with
    | some fd => (fd : Int)
    | none => -1

/-! ## Sensor metadata reader -/

/-- The local `char buf[512] = {0, }` after `read(sys_fd, buf, sizeof(buf))`. -/
def read_buf (content : List Nat) : List Nat :=
  content.take 512 ++ zeros (512 - (content.take 512).length)

/-- Conversion of `*c - '0'` to `bool`. -/
def flag_of_byte (b : Nat) : Bool := ((b : Int) - 48) != 0

/-- Body of the positional parse in `enum_camera_sensor`, applied to the entry
`*e` with the bytes of `buf`. -/
def parse_sensor_record (buf : List Nat) (e : nx_v4l2_entry) : nx_v4l2_entry :=
  let c := (bytes "is_mipi:").length
  let e1 := { e with is_mipi := flag_of_byte (buf.getD c 0) }
  let c := c + 13
  let e2 := { e1 with interlaced := flag_of_byte (buf.getD c 0) }
  let c := c + 7
  let e3 := { e2 with devname := strncpy DEVNAME_SIZE (buf.drop c) }
  { e3 with exist := true }

/-- One iteration of the loop of `enum_camera_sensor`, for sensor index `i`. -/
def enum_camera_sensor_iter (env : Env) (i : Nat) (c : nx_v4l2_entry_cache) :
    nx_v4l2_entry_cache :=
  match env.sensor_info i with
  | FileRead.open_failed => c
  | FileRead.read_failed => c
  | FileRead.data content =>
    let buf := read_buf content
    if strcmp_eq (bytes "no exist") buf then c
    else
      { c with entries := fun t m =>
          if t = nx_sensor_subdev.toNat ∧ m = i then
            parse_sensor_record buf (c.entries nx_sensor_subdev.toNat i)
          else c.entries t m }

/-- The loop of `enum_camera_sensor` over the indices of a list. -/
def enum_camera_sensor_loop (env : Env) : List Nat → nx_v4l2_entry_cache → nx_v4l2_entry_cache
  | [], c => c
  | i :: rest, c => enum_camera_sensor_loop env rest (enum_camera_sensor_iter env i c)

/-- The C `enum_camera_sensor`. -/
def enum_camera_sensor (env : Env) (c : nx_v4l2_entry_cache) : nx_v4l2_entry_cache :=
  enum_camera_sensor_loop env (List.range MAX_CAMERA_INSTANCE_NUM) c

/-! ## Resolution and interval prober -/

/-- Store into `f->interval[j]`. -/
def set_interval (f : nx_v4l2_frame_info) (j : Int) (v : Nat) : nx_v4l2_frame_info :=
  if j = 0 then { f with interval := (v, f.interval.2) }
  else { f with interval := (f.interval.1, v) }

/-- The C `nx_v4l2_get_framesize`: the return value and `*f` afterwards. -/
def nx_v4l2_get_framesize (dev : Device) (f : nx_v4l2_frame_info) : Int × nx_v4l2_frame_info :=
  match dev.enum_framesizes f.index with
  | some (w, h) => (0, { f with width := w, height := h })
  | none => (-1, f)

/-- The C `nx_v4l2_get_frameinterval`: the return value and `*f` afterwards. -/
def nx_v4l2_get_frameinterval (dev : Device) (f : nx_v4l2_frame_info) (minOrMax : Int) :
    Int × nx_v4l2_frame_info :=
  match dev.enum_frameintervals minOrMax f.width f.height with
  | some d => (0, set_interval f minOrMax d)
  | none => (-1, f)

/-- The inner loop `for (j = 0; j <= V4L2_INTERVAL_MAX; j++)` over a list of `j`:
the last return value and `*f` afterwards; it stops at the first failure. -/
def probe_intervals (dev : Device) : List Int → nx_v4l2_frame_info → Int × nx_v4l2_frame_info
  | [], f => (0, f)
  | j :: rest, f =>
    let r := nx_v4l2_get_frameinterval dev f j
    if r.1 != 0 then r else probe_intervals dev rest r.2

/-- Store `f` into `e->lists[i]`. -/
def set_list (e : nx_v4l2_entry) (i : Nat) (f : nx_v4l2_frame_info) : nx_v4l2_entry :=
  { e with lists := fun k => if k = i then f else e.lists k }

/-- The outer loop of `enum_all_supported_resolutions` over a list of indices `i`. -/
def probe_sizes (dev : Device) : List Nat → nx_v4l2_entry → nx_v4l2_entry
  | [], e => e
  | i :: rest, e =>
    let f := { e.lists i with index := (i : Int) }
    let r := nx_v4l2_get_framesize dev f
    if r.1 = 0 then
      let q := probe_intervals dev [0, 1] r.2
      if q.1 != 0 then { set_list e i q.2 with list_count := (i : Int) }
      else probe_sizes dev rest (set_list e i q.2)
    else { set_list e i r.2 with list_count := (i : Int) }

/-- The C `enum_all_supported_resolutions`. -/
def enum_all_supported_resolutions (env : Env) (e : nx_v4l2_entry) : nx_v4l2_entry :=
  match env.open_rd (cstr e.devnode) with
  | none => e
  | some dev => probe_sizes dev (List.range MAX_SUPPORTED_RESOLUTION) e

/-! ## Device tree scanner -/

/-- The buffer `entry_name` after `memset` and a `read` of at most
`DEVNAME_SIZE - 1` bytes. -/
def entry_name_buf (content : List Nat) : List Nat :=
  content.take (DEVNAME_SIZE - 1) ++
    zeros (DEVNAME_SIZE - (content.take (DEVNAME_SIZE - 1)).length)

/-- The statements of `enum_all_v4l2_devices` that fill the resolved entry `*e`:
`e->exist = true`, the `strcpy` of the reported name, the `sprintf` of the device
node path, and the probe of a clipper or decimator video device.  Undefined when
a string does not fit its buffer. -/
def store_device (env : Env) (item : DirItem) (entry_name : List Nat) (e : nx_v4l2_entry) :
    Option nx_v4l2_entry :=
  let e1 := { e with exist := true }
  match strcpy DEVNAME_SIZE e1.devname entry_name with
  | none => none
  | some dn =>
    let e2 := { e1 with devname := dn }
    match strcpy DEVNODE_SIZE e2.devnode (bytes "/dev/" ++ cstr item.d_name) with
    | none => none
    | some nd =>
      let e3 := { e2 with devnode := nd }
      if get_type_by_name entry_name = nx_clipper_video
          ∨ get_type_by_name entry_name = nx_decimator_video then
        some (enum_all_supported_resolutions env e3)
      else some e3

/-- Body of the loop of `enum_all_v4l2_devices` for one directory entry.
Undefined when `<d_name>/name` does not fit `entry_sys_path`. -/
def scan_item (env : Env) (item : DirItem) (c : nx_v4l2_entry_cache) :
    Option nx_v4l2_entry_cache :=
  if strcmp_eq item.d_name (bytes ".") || strcmp_eq item.d_name (bytes "..") then some c
  else if !item.lstat_ok then some c
  else if SYSFS_PATH_SIZE < (cstr item.d_name ++ bytes "/name").length + 1 then none
  else match item.name_attr with
    | FileRead.open_failed => some c
    | FileRead.read_failed => some c
    | FileRead.data content =>
      if (content.take (DEVNAME_SIZE - 1)).length = 0 then some c
      else
        let entry_name := entry_name_buf content
        match find_v4l2_entry_by_name c entry_name item.stack_module with
        | none => none
        | some EntryPtr.null => some c
        | some (EntryPtr.slot type module) =>
          match read_entry c type module with
          | none => none
          | some e =>
            match store_device env item entry_name e with
            | none => none
            | some e4 => write_entry c type module e4

/-- The loop of `enum_all_v4l2_devices` over the directory entries. -/
def scan_items (env : Env) : List DirItem → nx_v4l2_entry_cache → Option nx_v4l2_entry_cache
  | [], c => some c
  | item :: rest, c =>
    match scan_item env item c with
    | none => none
    | some c1 => scan_items env rest c1

/-- The C `enum_all_v4l2_devices`. -/
def enum_all_v4l2_devices (env : Env) (c : nx_v4l2_entry_cache) : Option nx_v4l2_entry_cache :=
  match scan_items env env.dir (enum_camera_sensor env c) with
  | none => none
  | some c1 => some { c1 with cached := true, scans := c1.scans + 1 }

/-! ## Public API -/

/-- The C `nx_v4l2_cleanup`. -/
def nx_v4l2_cleanup (c : nx_v4l2_entry_cache) : nx_v4l2_entry_cache :=
  { c with cached := false }

/-- The C `nx_v4l2_is_mipi_camera`. -/
def nx_v4l2_is_mipi_camera (c : nx_v4l2_entry_cache) (module : Int) : Option Bool :=
  match find_v4l2_entry nx_sensor_subdev module with
  | EntryPtr.null => some false
  | EntryPtr.slot t m =>
    match read_entry c t m with
    | none => none
    | some e => if e.is_mipi then some true else some false

/-- The C `nx_v4l2_is_interlaced_camera`. -/
def nx_v4l2_is_interlaced_camera (c : nx_v4l2_entry_cache) (module : Int) : Option Bool :=
  match find_v4l2_entry nx_sensor_subdev module with
  | EntryPtr.null => some false
  | EntryPtr.slot t m =>
    match read_entry c t m with
    | none => none
    | some e => if e.interlaced then some true else some false

/-- The scan the public entry points start with: `if (!cache->cached)
enum_all_v4l2_devices();`. -/
def scan_if_needed (env : Env) (c : nx_v4l2_entry_cache) : Option nx_v4l2_entry_cache :=
  if !c.cached then enum_all_v4l2_devices env c else some c

/-- The C `print_all_nx_v4l2_entry`, as far as the cache is concerned (the
printing reads the table only). -/
def print_all_nx_v4l2_entry (env : Env) (c : nx_v4l2_entry_cache) :
    Option nx_v4l2_entry_cache :=
  scan_if_needed env c

/-- The categories `j` of the loops `for (j = nx_clipper_video; j <=
nx_decimator_video; j++)`. -/
def video_categories : List Nat :=
  (List.range (nx_decimator_video + 1 - nx_clipper_video).toNat).map
    (fun k => nx_clipper_video.toNat + k)

/-- Body of the loops of `nx_v4l2_print_all_video_entry` for the slot `[j][i]`:
an existing entry takes over the flags and the name of sensor `i`. -/
def print_video_entry_at (j i : Nat) (c : nx_v4l2_entry_cache) : Option nx_v4l2_entry_cache :=
  let entry := c.entries j i
  if entry.exist then
    match nx_v4l2_is_mipi_camera c (i : Int) with
    | none => none
    | some mipi =>
      let c1 := { c with entries := fun t m =>
        if t = j ∧ m = i then { entry with is_mipi := mipi } else c.entries t m }
      match nx_v4l2_is_interlaced_camera c1 (i : Int) with
      | none => none
      | some il =>
        let e2 := { c1.entries j i with interlaced := il }
        match strcpy DEVNAME_SIZE e2.sensorname (c1.entries nx_sensor_subdev.toNat i).devname with
        | none => none
        | some sn =>
          some { c1 with entries := fun t m =>
            if t = j ∧ m = i then { e2 with sensorname := sn } else c1.entries t m }
  else some c

/-- The inner loop of `nx_v4l2_print_all_video_entry` over a list of `i`. -/
def print_video_row (j : Nat) : List Nat → nx_v4l2_entry_cache → Option nx_v4l2_entry_cache
  | [], c => some c
  | i :: rest, c =>
    match print_video_entry_at j i c with
    | none => none
    | some c1 => print_video_row j rest c1

/-- The outer loop of `nx_v4l2_print_all_video_entry` over a list of `j`. -/
def print_video_rows : List Nat → nx_v4l2_entry_cache → Option nx_v4l2_entry_cache
  | [], c => some c
  | j :: rest, c =>
    match print_video_row j (List.range MAX_CAMERA_INSTANCE_NUM) c with
    | none => none
    | some c1 => print_video_rows rest c1

/-- The C `nx_v4l2_print_all_video_entry`, as far as the cache is concerned. -/
def nx_v4l2_print_all_video_entry (env : Env) (c : nx_v4l2_entry_cache) :
    Option nx_v4l2_entry_cache :=
  match scan_if_needed env c with
  | none => none
  | some c1 => print_video_rows video_categories c1

/-- The C `nx_v4l2_enumerate`. -/
def nx_v4l2_enumerate (env : Env) (c : nx_v4l2_entry_cache) : Option nx_v4l2_entry_cache :=
  match (if c.cached = false then enum_all_v4l2_devices env c else some c) with
  | none => none
  | some c1 => nx_v4l2_print_all_video_entry env c1

/-- The C `nx_v4l2_open_device`: the cache afterwards and the returned value. -/
def nx_v4l2_open_device (env : Env) (c : nx_v4l2_entry_cache) (type module : Int) :
    Option (nx_v4l2_entry_cache × Int) :=
  match (if !c.cached then nx_v4l2_enumerate env c else some c) with
  | none => none
  | some c1 =>
    let module := if type = nx_csi_subdev then 0 else module
    match find_v4l2_entry type module with
    | EntryPtr.slot t m =>
      match read_entry c1 t m with
      | none => none
      | some entry => some (c1, sys_open_rw env entry.devnode)
    | EntryPtr.null => some (c1, -ENODEV)

/-- The C `nx_v4l2_get_video_path`: the cache afterwards and the returned
pointer, `none` for `NULL`, else the buffer `entry->devnode` it points to. -/
def nx_v4l2_get_video_path (env : Env) (c : nx_v4l2_entry_cache) (type : Int) (module : Nat) :
    Option (nx_v4l2_entry_cache × Option (List Nat)) :=
  match scan_if_needed env c with
  | none => none
  | some c1 =>
    match read_entry c1 type (module : Int) with
    | none => none
    | some entry => if entry.exist then some (c1, some entry.devnode) else some (c1, none)

/-- Conversion of a `bool` to `int`. -/
def int_of_bool (b : Bool) : Int := if b then 1 else 0

/-- The inner loop of `nx_v4l2_get_camera_type` over a list of `i`, on the state
`(ret, *mipi, *interlaced)`; a match ends the loop (`break`). -/
def camera_type_row (c : nx_v4l2_entry_cache) (video : List Nat) (j : Nat) :
    List Nat → Int × Int × Int → Option (Int × Int × Int)
  | [], st => some st
  | i :: rest, st =>
    let entry := c.entries j i
    if entry.exist && strcmp_eq entry.devnode video then
      match nx_v4l2_is_mipi_camera c (i : Int), nx_v4l2_is_interlaced_camera c (i : Int) with
      | some mipi, some il => some (0, int_of_bool mipi, int_of_bool il)
      | _, _ => none
    else camera_type_row c video j rest st

/-- The outer loop of `nx_v4l2_get_camera_type` over a list of `j`. -/
def camera_type_rows (c : nx_v4l2_entry_cache) (video : List Nat) :
    List Nat → Int × Int × Int → Option (Int × Int × Int)
  | [], st => some st
  | j :: rest, st =>
    match camera_type_row c video j (List.range MAX_CAMERA_INSTANCE_NUM) st with
    | none => none
    | some st1 => camera_type_rows c video rest st1

/-- The C `nx_v4l2_get_camera_type`.  `mipi` and `interlaced` are the values the
two output locations hold before the call; the result is the cache afterwards,
the returned value, and the values of `*mipi` and `*interlaced` afterwards. -/
def nx_v4l2_get_camera_type (env : Env) (c : nx_v4l2_entry_cache) (video : List Nat)
    (mipi interlaced : Int) : Option (nx_v4l2_entry_cache × Int × Int × Int) :=
  match scan_if_needed env c with
  | none => none
  | some c1 =>
    match camera_type_rows c1 video video_categories (-1, mipi, interlaced) with
    | none => none
    | some st => some (c1, st)

/-- Cache states the public entry points can produce from the cache at process
start, in any environment, the environment being free to change between calls. -/
inductive Reachable : nx_v4l2_entry_cache → Prop where
  | init : Reachable cache_init
  | cleanup {c} : Reachable c → Reachable (nx_v4l2_cleanup c)
  | print_all {c c1} (env : Env) :
      Reachable c → print_all_nx_v4l2_entry env c = some c1 → Reachable c1
  | print_video {c c1} (env : Env) :
      Reachable c → nx_v4l2_print_all_video_entry env c = some c1 → Reachable c1
  | enumerate {c c1} (env : Env) :
      Reachable c → nx_v4l2_enumerate env c = some c1 → Reachable c1
  | open_device {c c1} (env : Env) (type module fd : Int) :
      Reachable c → nx_v4l2_open_device env c type module = some (c1, fd) → Reachable c1
  | video_path {c c1} (env : Env) (type : Int) (module : Nat) (r : Option (List Nat)) :
      Reachable c → nx_v4l2_get_video_path env c type module = some (c1, r) → Reachable c1
  | camera_type {c c1} (env : Env) (video : List Nat) (m0 i0 : Int) (st : Int × Int × Int) :
      Reachable c → nx_v4l2_get_camera_type env c video m0 i0 = some (c1, st) → Reachable c1

/-! ## The record format of the spec -/

/-- The text of a well-formed sensor record with flags `a`, `b` and name `s`. -/
def sensor_record (a b : Nat) (s : List Nat) : List Nat :=
  bytes "is_mipi:" ++ [48 + a] ++ bytes ",interlaced:" ++ [48 + b] ++ bytes ",name:" ++ s

/-- Key-value reading of one field `key:value,` at the head of the input: the
value, up to the next comma, and the input behind that comma. -/
def kv_field (key input : List Nat) : Option (List Nat × List Nat) :=
  if (key ++ bytes ":").isPrefixOf input then
    let rest := input.drop (key.length + 1)
    let value := rest.takeWhile (fun b => b != 44)
    some (value, rest.drop (value.length + 1))
  else none

/-- A flag value of the record format: `0` or `1`. -/
def kv_flag (value : List Nat) : Option Bool :=
  if value = bytes "0" then some false
  else if value = bytes "1" then some true
  else none

/-- Key-value parse of a sensor record in the format the spec gives: the fields
`is_mipi:<0|1>`, `interlaced:<0|1>`, `name:<string>` in this order, separated by
commas, the name being the rest of the record. -/
def kv_parse_sensor_record (record : List Nat) : Option (Bool × Bool × List Nat) :=
  match kv_field (bytes "is_mipi") record with
  | none => none
  | some (v1, r1) =>
    match kv_flag v1, kv_field (bytes "interlaced") r1 with
    | some f1, some (v2, r2) =>
      match kv_flag v2 with
      | some f2 =>
        if (bytes "name:").isPrefixOf r2 then some (f1, f2, r2.drop (bytes "name:").length)
        else none
      | none => none
    | _, _ => none

/-- What the spec asks of a successful parse: the entry is marked existing and
takes the two flags and the name. -/
def store_sensor_fields (e : nx_v4l2_entry) (r : Bool × Bool × List Nat) : nx_v4l2_entry :=
  { e with exist := true, is_mipi := r.1, interlaced := r.2.1,
           devname := r.2.2 ++ zeros (DEVNAME_SIZE - r.2.2.length) }

/-! ## Definitions used in the proofs -/

/-- What one iteration of `enum_camera_sensor` for index `i` makes of the sensor
entry `e` of that index. -/
def sensor_slot_after (env : Env) (i : Nat) (e : nx_v4l2_entry) : nx_v4l2_entry :=
  match env.sensor_info i with
  | FileRead.open_failed => e
  | FileRead.read_failed => e
  | FileRead.data content =>
    if strcmp_eq (bytes "no exist") (read_buf content) then e
    else parse_sensor_record (read_buf content) e

/-- The frame info the prober stores for size index `i` when the device reports
width `w`, height `h` and the interval denominators `dmin`, `dmax`. -/
def probed_frame (i w h dmin dmax : Nat) : nx_v4l2_frame_info :=
  ⟨(i : Int), w, h, (dmin, dmax)⟩

/-- A device that reports three sizes and fails the size query from index 3 on. -/
def three_sizes_device : Device :=
  { enum_framesizes := fun i => if i < 3 then some (640 + 100 * i.toNat, 480) else none,
    enum_frameintervals := fun j w _ => some (w + j.toNat) }

/-- An environment where every device node opens as `three_sizes_device`. -/
def three_sizes_env : Env :=
  { sensor_info := fun _ => FileRead.open_failed, dir := [],
    open_rd := fun _ => some three_sizes_device, open_rw := fun _ => none }

/-- A sufficient condition for one directory entry to be scanned without
undefined behaviour: its device node path fits `devnode`, the number in its
reported name fits an `int`, and a name of a known category carries an instance
index inside the table. -/
def item_safe (item : DirItem) : Bool :=
  decide ((bytes "/dev/" ++ cstr item.d_name).length + 1 ≤ DEVNODE_SIZE) &&
  match item.name_attr with
  | FileRead.data content =>
    match sscanf_name (entry_name_buf content) item.stack_module with
    | none => false
    | some (type_name, module) =>
      decide (get_type_by_name type_name < 0) || in_bounds (get_type_by_name type_name) module
  | _ => true

/-- A sufficient condition for a scan of the environment to be defined. -/
def env_safe (env : Env) : Bool := env.dir.all item_safe

/-- An environment with one clipper video node and one sensor. -/
def sample_env : Env :=
  { sensor_info := fun i =>
      if i = 0 then FileRead.data (sensor_record 1 0 (bytes "ov5640"))
      else FileRead.data (bytes "no exist"),
    dir := [⟨bytes ".", true, FileRead.open_failed, 0⟩,
            ⟨bytes "..", true, FileRead.open_failed, 0⟩,
            ⟨bytes "video0", true, FileRead.data (bytes "VIDEO CLIPPER0"), 0⟩],
    open_rd := fun _ => some three_sizes_device,
    open_rw := fun _ => none }

/-- The invariant of the table: an entry that does not exist is all zero. -/
def absent_zero (c : nx_v4l2_entry_cache) : Prop :=
  ∀ t m, (c.entries t m).exist = false → c.entries t m = entry_zero

/-- An environment where the node `video0` is clipper video 0 and sensor 0 is a
MIPI sensor. -/
def first_boot_env : Env :=
  { sensor_info := fun i =>
      if i = 0 then FileRead.data (sensor_record 1 0 (bytes "ov5640"))
      else FileRead.data (bytes "no exist"),
    dir := [⟨bytes ".", true, FileRead.open_failed, 0⟩,
            ⟨bytes "..", true, FileRead.open_failed, 0⟩,
            ⟨bytes "video0", true, FileRead.data (bytes "VIDEO CLIPPER0"), 0⟩],
    open_rd := fun _ => none,
    open_rw := fun _ => none }

/-- The same system after the driver registered the node `video0` as clipper
video 1. -/
def renumbered_env : Env :=
  { first_boot_env with
    dir := [⟨bytes ".", true, FileRead.open_failed, 0⟩,
            ⟨bytes "..", true, FileRead.open_failed, 0⟩,
            ⟨bytes "video0", true, FileRead.data (bytes "VIDEO CLIPPER1"), 0⟩] }

/-- The cache after `print_all_nx_v4l2_entry` in `first_boot_env`. -/
def first_boot_cache : nx_v4l2_entry_cache :=
  (print_all_nx_v4l2_entry first_boot_env cache_init).getD cache_init

/-- The cache after `nx_v4l2_cleanup` and `print_all_nx_v4l2_entry` in
`renumbered_env`. -/
def renumbered_cache : nx_v4l2_entry_cache :=
  (print_all_nx_v4l2_entry renumbered_env (nx_v4l2_cleanup first_boot_cache)).getD cache_init

/-- The test of the inner loop of `nx_v4l2_get_camera_type` at the slot `[j][i]`:
the entry exists and its device node path equals `video`. -/
def path_matches (c : nx_v4l2_entry_cache) (video : List Nat) (j i : Nat) : Prop :=
  (c.entries j i).exist = true ∧ cstr (c.entries j i).devnode = cstr video

/-- The value `b` is the value `a` or the value `f`. -/
def val_mix {α : Type} (a b f : α) : Prop := b = a ∨ b = f

/-- The test of the loop of `get_sensor_info` at sensor index `i`: the entry
exists and its stored name is a leading part of `name`. -/
def sensor_name_matches (c : nx_v4l2_entry_cache) (name : List Nat) (i : Nat) : Prop :=
  (c.entries nx_sensor_subdev.toNat i).exist = true ∧
    cstr (c.entries nx_sensor_subdev.toNat i).devname <+: cstr name

/-- A device that answers every frame-size query (with `sizes`) and every
frame-interval query (with `ivals`), at every index. -/
def answering_device (sizes : Int → Nat × Nat) (ivals : Int → Nat → Nat → Nat) : Device :=
  { enum_framesizes := fun i => some (sizes i),
    enum_frameintervals := fun j w h => some (ivals j w h) }

/-- The environment `env` with every device node opening as the answering device. -/
def answering_env (env : Env) (sizes : Int → Nat × Nat) (ivals : Int → Nat → Nat → Nat) : Env :=
  { env with open_rd := fun _ => some (answering_device sizes ivals) }

/-- The frame info the prober stores at index `i` for the answering device. -/
def answered_frame (sizes : Int → Nat × Nat) (ivals : Int → Nat → Nat → Nat) (i : Nat) :
    nx_v4l2_frame_info :=
  probed_frame i (sizes (i : Int)).1 (sizes (i : Int)).2
    (ivals 0 (sizes (i : Int)).1 (sizes (i : Int)).2)
    (ivals 1 (sizes (i : Int)).1 (sizes (i : Int)).2)

/-- The end-to-end scenario of the spec: the directory holds the entries
`foo-device3`, `nx-clipper0` and `nx-decimator1` (besides `.` and `..`), each
reporting its own name, and sensor metadata exists for index 0 only, with the
record "is_mipi:1,interlaced:0,name:ov5640". -/
def scenario_env : Env :=
  { sensor_info := fun i =>
      if i = 0 then FileRead.data (bytes "is_mipi:1,interlaced:0,name:ov5640")
      else FileRead.open_failed,
    dir := [⟨bytes ".", true, FileRead.open_failed, 0⟩,
            ⟨bytes "..", true, FileRead.open_failed, 0⟩,
            ⟨bytes "foo-device3", true, FileRead.data (bytes "foo-device3"), 0⟩,
            ⟨bytes "nx-clipper0", true, FileRead.data (bytes "nx-clipper0"), 0⟩,
            ⟨bytes "nx-decimator1", true, FileRead.data (bytes "nx-decimator1"), 0⟩],
    open_rd := fun _ => none,
    open_rw := fun _ => none }

/-- The cache after one scan of `scenario_env` from the cache at process start. -/
def scenario_cache : nx_v4l2_entry_cache :=
  (enum_all_v4l2_devices scenario_env cache_init).getD cache_init

/-- The slots `(type, module)` of the table whose entry exists, in table order. -/
def existing_slots (c : nx_v4l2_entry_cache) : List (Nat × Nat) :=
  ((List.range nx_v4l2_max.toNat).map (fun t =>
    ((List.range MAX_CAMERA_INSTANCE_NUM).filter (fun m => (c.entries t m).exist)).map
      (fun m => (t, m)))).flatten

/-- Two directory entries are the same entry of the file system: they differ at
most in the value the uninitialised local `module` holds while they are
resolved. -/
def same_item (a b : DirItem) : Prop :=
  a.d_name = b.d_name ∧ a.lstat_ok = b.lstat_ok ∧ a.name_attr = b.name_attr

/-- Two environments are the same device environment: the same sensor records,
directory listing, name attributes and device answers. -/
def same_environment (e1 e2 : Env) : Prop :=
  e1.sensor_info = e2.sensor_info ∧ e1.open_rd = e2.open_rd ∧ e1.open_rw = e2.open_rw ∧
    List.Forall₂ same_item e1.dir e2.dir

/-- The system of `first_boot_env` after sensor 0 was removed: every sensor
record is the text "no exist". -/
def sensor_gone_env : Env :=
  { first_boot_env with sensor_info := fun _ => FileRead.data (bytes "no exist") }

/-- The cache after `nx_v4l2_cleanup` and `print_all_nx_v4l2_entry` in
`sensor_gone_env`. -/
def sensor_gone_cache : nx_v4l2_entry_cache :=
  (print_all_nx_v4l2_entry sensor_gone_env (nx_v4l2_cleanup first_boot_cache)).getD cache_init

theorem cstr_eq_self {l : List Nat} (h : ∀ b ∈ l, b ≠ 0) : cstr l = l := by
  unfold cstr
  rw [List.takeWhile_eq_self_iff]
  intro b hb
  simpa using h b hb

theorem cstr_nonzero (l : List Nat) : ∀ b ∈ cstr l, b ≠ 0 := by
  intro b hb
  have := List.mem_takeWhile_imp hb
  simpa using this

theorem cstr_cstr (l : List Nat) : cstr (cstr l) = cstr l :=
  cstr_eq_self (cstr_nonzero l)

theorem cstr_append_zero (s r : List Nat) (h : ∀ b ∈ s, b ≠ 0) : cstr (s ++ 0 :: r) = s := by
  induction s with
  | nil => simp [cstr]
  | cons a t ih =>
    have ha : a ≠ 0 := h a (List.mem_cons_self _ _)
    have ht : ∀ b ∈ t, b ≠ 0 := fun b hb => h b (List.mem_cons_of_mem _ hb)
    have ih1 := ih ht
    unfold cstr at ih1 ⊢
    simp [List.takeWhile_cons, ha, ih1]

theorem cstr_append_zeros (s : List Nat) (n : Nat) (h : ∀ b ∈ s, b ≠ 0) :
    cstr (s ++ zeros n) = s := by
  cases n with
  | zero => simpa [zeros] using cstr_eq_self h
  | succ k => simpa [zeros, List.replicate_succ] using cstr_append_zero s (List.replicate k 0) h

theorem strncmp_eq_known (a p : List Nat) (hp : ∀ b ∈ p, b ≠ 0) :
    strncmp_eq a p (strlen p) = true ↔ p <+: cstr a := by
  unfold strncmp_eq strlen
  rw [cstr_eq_self hp, List.take_length, List.prefix_iff_eq_take]
  constructor
  · intro h
    exact (eq_of_beq h).symm
  · intro h
    rw [← h]
    exact beq_self_eq_true p

/-! ## Name classifier -/

theorem sscanf_name_cstr {name : List Nat} {module0 : Int} {type_name : List Nat} {module : Int}
    (h : sscanf_name name module0 = some (type_name, module)) : cstr type_name = type_name := by
  have key : cstr ((cstr name).takeWhile (fun b => !isDigit b))
      = (cstr name).takeWhile (fun b => !isDigit b) :=
    cstr_eq_self (fun b hb => cstr_nonzero name b (List.takeWhile_sublist _ |>.subset hb))
  unfold sscanf_name at h
  simp only at h
  split_ifs at h <;> simp only [Option.some.injEq, Prod.mk.injEq] at h
  · rw [← h.1]; rfl
  · rw [← h.1]; exact key
  · rw [← h.1]; exact key

theorem get_type_by_name_unknown (type_name : List Nat)
    (h : ∀ p ∈ known_prefixes, ¬ p.1 <+: cstr type_name) :
    get_type_by_name type_name = -EINVAL := by
  have nz : ∀ p ∈ known_prefixes, ∀ b ∈ p.1, b ≠ 0 := by decide
  have hf : ∀ p ∈ known_prefixes, strncmp_eq type_name p.1 (strlen p.1) = false := by
    intro p hp
    have := (strncmp_eq_known type_name p.1 (nz p hp)).not.mpr (h p hp)
    simpa using this
  simp only [known_prefixes, List.mem_cons, List.mem_singleton, forall_eq_or_imp, forall_eq,
    List.not_mem_nil, false_implies, implies_true, and_true] at hf
  obtain ⟨h1, h2, h3, h4, h5, h6⟩ := hf
  simp [get_type_by_name, h1, h2, h3, h4, h5, h6]

/-- C1: each of the six known name prefixes followed by the decimal digits of an
instance index `n < 12` is split into that prefix and `n`, is classified as the
category of the prefix, and resolves to the slot (category, `n`), in every cache
and whatever the uninitialised `module` held (for example "nx-clipper3" gives
clipper sub-device 3, "VIDEO CLIPPER2" clipper video 2, "VIDEO DECIMATOR0"
decimator video 0); and whenever the non-numeric prefix of a name starts with
none of the six prefixes, as for "random-device7", the classifier returns
`-EINVAL`. -/
theorem classifier_correct :
    (∀ p ∈ known_prefixes, ∀ n : Nat, n < MAX_CAMERA_INSTANCE_NUM →
      ∀ (c : nx_v4l2_entry_cache) (module0 : Int),
        sscanf_name (p.1 ++ digits n) module0 = some (p.1, (n : Int)) ∧
        get_type_by_name p.1 = p.2 ∧
        find_v4l2_entry_by_name c (p.1 ++ digits n) module0 = some (EntryPtr.slot p.2 n)) ∧
    (find_v4l2_entry_by_name cache_init (bytes "nx-clipper3") 0
        = some (EntryPtr.slot nx_clipper_subdev 3) ∧
      find_v4l2_entry_by_name cache_init (bytes "VIDEO CLIPPER2") 0
        = some (EntryPtr.slot nx_clipper_video 2) ∧
      find_v4l2_entry_by_name cache_init (bytes "VIDEO DECIMATOR0") 0
        = some (EntryPtr.slot nx_decimator_video 0)) ∧
    (∀ (name : List Nat) (module0 : Int) (type_name : List Nat) (module : Int),
      sscanf_name name module0 = some (type_name, module) →
      (∀ p ∈ known_prefixes, ¬ p.1 <+: type_name) →
        get_type_by_name type_name = -EINVAL) ∧
    (sscanf_name (bytes "random-device7") 0 = some (bytes "random-device", 7) ∧
      get_type_by_name (bytes "random-device") = -EINVAL) := by
  refine ⟨?_, by decide, ?_, by decide⟩
  · intro p hp n hn c module0
    simp only [known_prefixes, List.mem_cons, List.mem_singleton, List.not_mem_nil,
      or_false] at hp
    have hn12 : n < 12 := hn
    rcases hp with rfl | rfl | rfl | rfl | rfl | rfl <;> interval_cases n <;>
      exact ⟨rfl, rfl, rfl⟩
  · intro name module0 type_name module hs hnone
    apply get_type_by_name_unknown
    rw [sscanf_name_cstr hs]
    exact hnone

/-- Witness for C1 at the name "random-device7". -/
theorem classifier_correct_witness :
    get_type_by_name (bytes "random-device") = -EINVAL :=
  classifier_correct.2.2.1 (bytes "random-device7") 0 (bytes "random-device") 7
    (by decide) (by decide)

/-! ## Sensor metadata reader -/

theorem nx_sensor_subdev_toNat : nx_sensor_subdev.toNat = 0 := rfl

theorem slot_ite_self {α : Type} (f : Nat → Nat → α) (t m j k : Nat) :
    (if t = j ∧ m = k then f j k else f t m) = f t m := by
  split_ifs with h
  · rw [h.1, h.2]
  · rfl

theorem iter_entries (env : Env) (k : Nat) (c : nx_v4l2_entry_cache) (t m : Nat) :
    (enum_camera_sensor_iter env k c).entries t m
      = if t = 0 ∧ m = k then sensor_slot_after env k (c.entries 0 k) else c.entries t m := by
  unfold enum_camera_sensor_iter sensor_slot_after
  cases h : env.sensor_info k with
  | open_failed => exact (slot_ite_self c.entries t m 0 k).symm
  | read_failed => exact (slot_ite_self c.entries t m 0 k).symm
  | data content =>
    simp only [nx_sensor_subdev_toNat]
    by_cases hs : strcmp_eq (bytes "no exist") (read_buf content) = true
    · simp only [hs, if_true]
      exact (slot_ite_self c.entries t m 0 k).symm
    · simp [hs]

theorem iter_cached (env : Env) (k : Nat) (c : nx_v4l2_entry_cache) :
    (enum_camera_sensor_iter env k c).cached = c.cached
      ∧ (enum_camera_sensor_iter env k c).scans = c.scans := by
  unfold enum_camera_sensor_iter
  cases env.sensor_info k with
  | open_failed => simp
  | read_failed => simp
  | data content => 
    simp only
    split <;> simp

theorem loop_entries (env : Env) (l : List Nat) (hl : l.Nodup) (c : nx_v4l2_entry_cache)
    (t m : Nat) :
    (enum_camera_sensor_loop env l c).entries t m
      = if t = 0 ∧ m ∈ l then sensor_slot_after env m (c.entries 0 m) else c.entries t m := by
  induction l generalizing c with
  | nil => simp [enum_camera_sensor_loop]
  | cons k rest ih =>
    rw [List.nodup_cons] at hl
    simp only [enum_camera_sensor_loop]
    rw [ih hl.2, iter_entries, iter_entries]
    by_cases ht : t = 0
    · by_cases hm : m = k
      · subst hm
        simp [ht, hl.1]
      · by_cases hr : m ∈ rest
        · simp [ht, hm, hr]
        · simp [ht, hm, hr]
    · simp [ht]

theorem loop_cached (env : Env) (l : List Nat) (c : nx_v4l2_entry_cache) :
    (enum_camera_sensor_loop env l c).cached = c.cached
      ∧ (enum_camera_sensor_loop env l c).scans = c.scans := by
  induction l generalizing c with
  | nil => simp [enum_camera_sensor_loop]
  | cons k rest ih =>
    simp only [enum_camera_sensor_loop]
    rw [(ih _).1, (ih _).2]
    exact iter_cached env k c

theorem enum_camera_sensor_entries (env : Env) (c : nx_v4l2_entry_cache) (t m : Nat) :
    (enum_camera_sensor env c).entries t m
      = if t = 0 ∧ m < MAX_CAMERA_INSTANCE_NUM then sensor_slot_after env m (c.entries 0 m)
        else c.entries t m := by
  unfold enum_camera_sensor
  rw [loop_entries env _ (List.nodup_range _)]
  simp only [List.mem_range]

theorem sensor_record_eq (a b : Nat) (s : List Nat) :
    sensor_record a b s = 105 :: 115 :: 95 :: 109 :: 105 :: 112 :: 105 :: 58 :: (48 + a) :: 44
      :: 105 :: 110 :: 116 :: 101 :: 114 :: 108 :: 97 :: 99 :: 101 :: 100 :: 58 :: (48 + b) :: 44
      :: 110 :: 97 :: 109 :: 101 :: 58 :: s := rfl

theorem kv_parse_record (a b : Nat) (ha : a ≤ 1) (hb : b ≤ 1) (s : List Nat) :
    kv_parse_sensor_record (sensor_record a b s) = some (a == 1, b == 1, s) := by
  have h3 : (bytes "name:").isPrefixOf (bytes "name:" ++ s) = true := by
    simp [bytes]
  have h4 : List.drop (bytes "name:").length (bytes "name:" ++ s) = s := by
    simp
  have k1 : ∀ d rest, d = 48 ∨ d = 49 →
      kv_field (bytes "is_mipi") (bytes "is_mipi:" ++ d :: 44 :: rest) = some ([d], rest) := by
    intro d rest hd
    rcases hd with rfl | rfl <;> rfl
  have k2 : ∀ d rest, d = 48 ∨ d = 49 →
      kv_field (bytes "interlaced") (bytes "interlaced:" ++ d :: 44 :: rest) = some ([d], rest) := by
    intro d rest hd
    rcases hd with rfl | rfl <;> rfl
  have f : ∀ x, x ≤ 1 → kv_flag [48 + x] = some (x == 1) := by
    intro x hx
    interval_cases x <;> rfl
  have d : ∀ x, x ≤ 1 → (48 + x = 48 ∨ 48 + x = 49) := by
    intro x hx
    interval_cases x <;> simp
  have hr : sensor_record a b s = bytes "is_mipi:" ++ (48 + a) :: 44
      :: (bytes "interlaced:" ++ (48 + b) :: 44 :: (bytes "name:" ++ s)) := rfl
  unfold kv_parse_sensor_record
  rw [hr, k1 _ _ (d a ha)]
  simp only [k2 _ _ (d b hb), f a ha, f b hb, h3, h4, if_true]

theorem read_buf_record (a b : Nat) (s : List Nat) (hs : s.length < DEVNAME_SIZE) :
    read_buf (sensor_record a b s)
      = sensor_record a b s ++ zeros (512 - (sensor_record a b s).length) := by
  have hlen : (sensor_record a b s).length ≤ 512 := by
    rw [sensor_record_eq]
    simp only [List.length_cons]
    unfold DEVNAME_SIZE at hs
    omega
  unfold read_buf
  rw [List.take_of_length_le hlen]

theorem strncpy_padded (s : List Nat) (n : Nat) (hs : s.length < DEVNAME_SIZE)
    (hz : ∀ x ∈ s, x ≠ 0) :
    strncpy DEVNAME_SIZE (s ++ zeros n) = s ++ zeros (DEVNAME_SIZE - s.length) := by
  unfold strncpy
  simp only [cstr_append_zeros s n hz]
  rw [List.take_of_length_le (le_of_lt hs)]

theorem flag_of_byte_digit (x : Nat) (hx : x ≤ 1) : flag_of_byte (48 + x) = (x == 1) := by
  interval_cases x <;> rfl

theorem parse_record (a b : Nat) (ha : a ≤ 1) (hb : b ≤ 1) (s : List Nat)
    (hs : s.length < DEVNAME_SIZE) (hz : ∀ x ∈ s, x ≠ 0) (e : nx_v4l2_entry) :
    strcmp_eq (bytes "no exist") (read_buf (sensor_record a b s)) = false ∧
    parse_sensor_record (read_buf (sensor_record a b s)) e
      = store_sensor_fields e (a == 1, b == 1, s) := by
  rw [read_buf_record a b s hs]
  generalize (512 - (sensor_record a b s).length) = n
  rw [sensor_record_eq]
  constructor
  · rfl
  · unfold parse_sensor_record store_sensor_fields
    have hd : List.drop ((bytes "is_mipi:").length + 13 + 7)
        ((105 :: 115 :: 95 :: 109 :: 105 :: 112 :: 105 :: 58 :: (48 + a) :: 44
      :: 105 :: 110 :: 116 :: 101 :: 114 :: 108 :: 97 :: 99 :: 101 :: 100 :: 58 :: (48 + b) :: 44
      :: 110 :: 97 :: 109 :: 101 :: 58 :: s) ++ zeros n) = s ++ zeros n := rfl
    have g1 : List.getD ((105 :: 115 :: 95 :: 109 :: 105 :: 112 :: 105 :: 58 :: (48 + a) :: 44
      :: 105 :: 110 :: 116 :: 101 :: 114 :: 108 :: 97 :: 99 :: 101 :: 100 :: 58 :: (48 + b) :: 44
      :: 110 :: 97 :: 109 :: 101 :: 58 :: s) ++ zeros n) (bytes "is_mipi:").length 0 = 48 + a := rfl
    have g2 : List.getD ((105 :: 115 :: 95 :: 109 :: 105 :: 112 :: 105 :: 58 :: (48 + a) :: 44
      :: 105 :: 110 :: 116 :: 101 :: 114 :: 108 :: 97 :: 99 :: 101 :: 100 :: 58 :: (48 + b) :: 44
      :: 110 :: 97 :: 109 :: 101 :: 58 :: s) ++ zeros n) ((bytes "is_mipi:").length + 13) 0
        = 48 + b := rfl
    simp only [hd, g1, g2, strncpy_padded s n hs hz, flag_of_byte_digit a ha,
      flag_of_byte_digit b hb]

/-- C2: for a well-formed record `is_mipi:<a>,interlaced:<b>,name:<s>` with `a`, `b` in
{0, 1} and a name `s` of fewer than 64 bytes (text, so without a NUL byte) read for
sensor index `i < 12`, the key-value parse of the record gives `(a = 1, b = 1, s)`
and `enum_camera_sensor` leaves the sensor entry `i` exactly as storing that
key-value result would: `exist = true`, `is_mipi = (a = 1)`,
`interlaced = (b = 1)` and stored name `s`. -/
theorem sensor_record_positional_eq_kv (env : Env) (c : nx_v4l2_entry_cache) (i a b : Nat)
    (s : List Nat) (hi : i < MAX_CAMERA_INSTANCE_NUM) (ha : a ≤ 1) (hb : b ≤ 1)
    (hs : s.length < DEVNAME_SIZE) (hz : ∀ x ∈ s, x ≠ 0)
    (hrec : env.sensor_info i = FileRead.data (sensor_record a b s)) :
    kv_parse_sensor_record (sensor_record a b s) = some (a == 1, b == 1, s) ∧
    (enum_camera_sensor env c).entries nx_sensor_subdev.toNat i
      = store_sensor_fields (c.entries nx_sensor_subdev.toNat i) (a == 1, b == 1, s) ∧
    ((enum_camera_sensor env c).entries nx_sensor_subdev.toNat i).exist = true ∧
    ((enum_camera_sensor env c).entries nx_sensor_subdev.toNat i).is_mipi = (a == 1) ∧
    ((enum_camera_sensor env c).entries nx_sensor_subdev.toNat i).interlaced = (b == 1) ∧
    cstr ((enum_camera_sensor env c).entries nx_sensor_subdev.toNat i).devname = s := by
  have hp := parse_record a b ha hb s hs hz (c.entries 0 i)
  have key : (enum_camera_sensor env c).entries nx_sensor_subdev.toNat i
      = store_sensor_fields (c.entries nx_sensor_subdev.toNat i) (a == 1, b == 1, s) := by
    rw [enum_camera_sensor_entries]
    simp only [nx_sensor_subdev_toNat, hi, and_self, if_true]
    unfold sensor_slot_after
    rw [hrec]
    simp only [hp.1, hp.2]
    simp
  refine ⟨kv_parse_record a b ha hb s, key, ?_, ?_, ?_, ?_⟩
  · rw [key]; rfl
  · rw [key]; rfl
  · rw [key]; rfl
  · rw [key]
    exact cstr_append_zeros s _ hz

/-- Witness for C2: the record "is_mipi:1,interlaced:0,name:ov5640" read for sensor 0. -/
theorem sensor_record_positional_eq_kv_witness :
    kv_parse_sensor_record (sensor_record 1 0 (bytes "ov5640"))
      = some (1 == 1, 0 == 1, bytes "ov5640") ∧
    (enum_camera_sensor ⟨fun _ => FileRead.data (sensor_record 1 0 (bytes "ov5640")), [],
        fun _ => none, fun _ => none⟩ cache_init).entries nx_sensor_subdev.toNat 0
      = store_sensor_fields (cache_init.entries nx_sensor_subdev.toNat 0)
          (1 == 1, 0 == 1, bytes "ov5640") ∧
    ((enum_camera_sensor ⟨fun _ => FileRead.data (sensor_record 1 0 (bytes "ov5640")), [],
        fun _ => none, fun _ => none⟩ cache_init).entries nx_sensor_subdev.toNat 0).exist = true ∧
    ((enum_camera_sensor ⟨fun _ => FileRead.data (sensor_record 1 0 (bytes "ov5640")), [],
        fun _ => none, fun _ => none⟩ cache_init).entries nx_sensor_subdev.toNat 0).is_mipi
      = (1 == 1) ∧
    ((enum_camera_sensor ⟨fun _ => FileRead.data (sensor_record 1 0 (bytes "ov5640")), [],
        fun _ => none, fun _ => none⟩ cache_init).entries nx_sensor_subdev.toNat 0).interlaced
      = (0 == 1) ∧
    cstr ((enum_camera_sensor ⟨fun _ => FileRead.data (sensor_record 1 0 (bytes "ov5640")), [],
        fun _ => none, fun _ => none⟩ cache_init).entries nx_sensor_subdev.toNat 0).devname
      = bytes "ov5640" :=
  sensor_record_positional_eq_kv
    ⟨fun _ => FileRead.data (sensor_record 1 0 (bytes "ov5640")), [], fun _ => none, fun _ => none⟩
    cache_init 0 1 0 (bytes "ov5640") (by decide) (by decide) (by decide) (by decide)
    (by decide) rfl

/-! ## Resolution and interval prober -/

theorem probe_intervals_ok (dev : Device) (f : nx_v4l2_frame_info) (dmin dmax : Nat)
    (h0 : dev.enum_frameintervals 0 f.width f.height = some dmin)
    (h1 : dev.enum_frameintervals 1 f.width f.height = some dmax) :
    probe_intervals dev [0, 1] f = (0, { f with interval := (dmin, dmax) }) := by
  simp [probe_intervals, nx_v4l2_get_frameinterval, h0, h1, set_interval]

theorem probe_intervals_fail (dev : Device) (f : nx_v4l2_frame_info)
    (h : dev.enum_frameintervals 0 f.width f.height = none
      ∨ dev.enum_frameintervals 1 f.width f.height = none) :
    (probe_intervals dev [0, 1] f).1 ≠ 0 := by
  rcases h with h | h
  · simp [probe_intervals, nx_v4l2_get_frameinterval, h]
  · cases h0 : dev.enum_frameintervals 0 f.width f.height with
    | none => simp [probe_intervals, nx_v4l2_get_frameinterval, h0]
    | some d =>
      have hw : (set_interval f 0 d).width = f.width := by simp [set_interval]
      have hh : (set_interval f 0 d).height = f.height := by simp [set_interval]
      simp [probe_intervals, nx_v4l2_get_frameinterval, h0, hw, hh, h]

theorem probe_sizes_truncates (dev : Device) (k : Nat) (w h dmin dmax : Nat → Nat)
    (hok : ∀ i, i < k → dev.enum_framesizes (i : Int) = some (w i, h i)
      ∧ dev.enum_frameintervals 0 (w i) (h i) = some (dmin i)
      ∧ dev.enum_frameintervals 1 (w i) (h i) = some (dmax i))
    (hfail : dev.enum_framesizes (k : Int) = none
      ∨ ∃ wk hk, dev.enum_framesizes (k : Int) = some (wk, hk)
          ∧ (dev.enum_frameintervals 0 wk hk = none ∨ dev.enum_frameintervals 1 wk hk = none)) :
    ∀ (n s : Nat) (e : nx_v4l2_entry), s ≤ k → k < s + n →
      (∀ i, i < s → e.lists i = probed_frame i (w i) (h i) (dmin i) (dmax i)) →
      (probe_sizes dev (List.range' s n) e).list_count = (k : Int)
      ∧ ∀ i, i < k → (probe_sizes dev (List.range' s n) e).lists i
          = probed_frame i (w i) (h i) (dmin i) (dmax i) := by
  intro n
  induction n with
  | zero => intro s e h1 h2; omega
  | succ n ih =>
    intro s e hsk hkn hpre
    rw [List.range'_succ]
    unfold probe_sizes
    by_cases hs : s = k
    · subst hs
      rcases hfail with hf | ⟨wk, hk, hf, hi⟩
      · simp only [nx_v4l2_get_framesize, hf]
        refine ⟨by simp, ?_⟩
        intro i hi
        have : i ≠ s := by omega
        simp [set_list, this, hpre i hi]
      · simp only [nx_v4l2_get_framesize, hf, if_true]
        have hne := probe_intervals_fail dev
          { index := (s : Int), width := wk, height := hk, interval := (e.lists s).interval } hi
        simp only [bne_iff_ne, ne_eq, hne, not_false_eq_true, if_true]
        refine ⟨trivial, ?_⟩
        intro i hi
        have : i ≠ s := by omega
        simp [set_list, this, hpre i hi]
    · have hlt : s < k := lt_of_le_of_ne hsk hs
      obtain ⟨h1, h2, h3⟩ := hok s hlt
      simp only [nx_v4l2_get_framesize, h1, if_true]
      rw [probe_intervals_ok dev _ (dmin s) (dmax s) h2 h3]
      simp only [bne_self_eq_false, Bool.false_eq_true, if_false]
      apply ih (s + 1) _ (by omega) (by omega)
      intro i hi
      by_cases his : i = s
      · subst his
        simp [set_list, probed_frame]
      · simp only [set_list, his, if_false]
        exact hpre i (by omega)

/-- C3: when the device node opens and the device answers the frame-size query and
both frame-interval queries (min, then max) at the indices `0 .. k-1`, with
`k < 10`, and at index `k` either the frame-size query fails or it succeeds and
one of the two interval queries for that size fails, then
`enum_all_supported_resolutions` leaves `list_count = k` and, for every `i < k`,
`lists[i]` holds index `i`, the reported width and height and the reported
interval pair `[min, max]`.  With `k = 0` the count is 0: no partial entry is
counted. -/
theorem prober_truncation (env : Env) (e : nx_v4l2_entry) (dev : Device) (k : Nat)
    (w h dmin dmax : Nat → Nat) (hk : k < MAX_SUPPORTED_RESOLUTION)
    (hopen : env.open_rd (cstr e.devnode) = some dev)
    (hok : ∀ i, i < k → dev.enum_framesizes (i : Int) = some (w i, h i)
      ∧ dev.enum_frameintervals 0 (w i) (h i) = some (dmin i)
      ∧ dev.enum_frameintervals 1 (w i) (h i) = some (dmax i))
    (hfail : dev.enum_framesizes (k : Int) = none
      ∨ ∃ wk hk, dev.enum_framesizes (k : Int) = some (wk, hk)
          ∧ (dev.enum_frameintervals 0 wk hk = none ∨ dev.enum_frameintervals 1 wk hk = none)) :
    (enum_all_supported_resolutions env e).list_count = (k : Int)
    ∧ ∀ i, i < k → (enum_all_supported_resolutions env e).lists i
        = { index := (i : Int), width := w i, height := h i, interval := (dmin i, dmax i) } := by
  unfold enum_all_supported_resolutions
  rw [hopen]
  simp only
  rw [List.range_eq_range']
  exact probe_sizes_truncates dev k w h dmin dmax hok hfail MAX_SUPPORTED_RESOLUTION 0 e
    (Nat.zero_le k) (by omega) (fun i hi => absurd hi (Nat.not_lt_zero i))

/-- Witness for C3: a device with sizes at 0, 1, 2 that fails the size query at 3. -/
theorem prober_truncation_witness :
    (enum_all_supported_resolutions three_sizes_env entry_zero).list_count = ((3 : Nat) : Int)
    ∧ ∀ i, i < 3 → (enum_all_supported_resolutions three_sizes_env entry_zero).lists i
        = { index := (i : Int), width := 640 + 100 * i, height := 480,
            interval := (640 + 100 * i, 640 + 100 * i + 1) } :=
  prober_truncation three_sizes_env entry_zero three_sizes_device 3
    (fun i => 640 + 100 * i) (fun _ => 480) (fun i => 640 + 100 * i) (fun i => 640 + 100 * i + 1)
    (by decide) rfl (by decide) (Or.inl rfl)

/-! ## Device tree scanner: frame and totality -/

theorem write_entry_eq {c c1 : nx_v4l2_entry_cache} {t m : Int} {e : nx_v4l2_entry}
    (h : write_entry c t m e = some c1) :
    in_bounds t m = true ∧ c1 = { c with entries := fun t1 m1 =>
      if t1 = t.toNat ∧ m1 = m.toNat then e else c.entries t1 m1 } := by
  unfold write_entry at h
  split_ifs at h with hb
  exact ⟨hb, (Option.some.inj h).symm⟩

theorem read_entry_eq {c : nx_v4l2_entry_cache} {t m : Int} {e : nx_v4l2_entry}
    (h : read_entry c t m = some e) :
    in_bounds t m = true ∧ e = c.entries t.toNat m.toNat := by
  unfold read_entry at h
  split_ifs at h with hb
  exact ⟨hb, (Option.some.inj h).symm⟩

/-- A step of the directory loop either leaves the cache as it is or stores one
entry, made by `store_device` from the entry of the resolved slot. -/
theorem scan_item_cases {env : Env} {item : DirItem} {c c1 : nx_v4l2_entry_cache}
    (h : scan_item env item c = some c1) :
    c1 = c ∨ ∃ content t m e1,
      item.name_attr = FileRead.data content ∧
      find_v4l2_entry_by_name c (entry_name_buf content) item.stack_module
        = some (EntryPtr.slot t m) ∧
      in_bounds t m = true ∧
      store_device env item (entry_name_buf content) (c.entries t.toNat m.toNat) = some e1 ∧
      c1 = { c with entries := fun t1 m1 =>
        if t1 = t.toNat ∧ m1 = m.toNat then e1 else c.entries t1 m1 } := by
  unfold scan_item at h
  split_ifs at h with h1 h2 h3
  · exact Or.inl (Option.some.inj h).symm
  · exact Or.inl (Option.some.inj h).symm
  · cases hn : item.name_attr with
    | open_failed => rw [hn] at h; exact Or.inl (Option.some.inj h).symm
    | read_failed => rw [hn] at h; exact Or.inl (Option.some.inj h).symm
    | data content =>
      rw [hn] at h
      simp only at h
      split_ifs at h with h4
      · exact Or.inl (Option.some.inj h).symm
      · cases hf : find_v4l2_entry_by_name c (entry_name_buf content) item.stack_module with
        | none => rw [hf] at h; exact absurd h (by simp)
        | some p =>
          rw [hf] at h
          cases p with
          | null => exact Or.inl (Option.some.inj h).symm
          | slot t m =>
            simp only at h
            cases hr : read_entry c t m with
            | none => rw [hr] at h; exact absurd h (by simp)
            | some e =>
              rw [hr] at h
              simp only at h
              obtain ⟨hb, he⟩ := read_entry_eq hr
              cases hs : store_device env item (entry_name_buf content) e with
              | none => rw [hs] at h; exact absurd h (by simp)
              | some e1 =>
                rw [hs] at h
                simp only at h
                refine Or.inr ⟨content, t, m, e1, rfl, hf, hb, ?_, (write_entry_eq h).2⟩
                rw [← he]; exact hs

theorem scan_item_frame {env : Env} {item : DirItem} {c c1 : nx_v4l2_entry_cache}
    (h : scan_item env item c = some c1) : c1.cached = c.cached ∧ c1.scans = c.scans := by
  rcases scan_item_cases h with rfl | ⟨_, _, _, _, _, _, _, _, rfl⟩
  · exact ⟨rfl, rfl⟩
  · exact ⟨rfl, rfl⟩

theorem scan_items_frame {env : Env} (l : List DirItem) {c c1 : nx_v4l2_entry_cache}
    (h : scan_items env l c = some c1) : c1.cached = c.cached ∧ c1.scans = c.scans := by
  induction l generalizing c with
  | nil =>
    simp only [scan_items, Option.some.injEq] at h
    subst h; exact ⟨rfl, rfl⟩
  | cons item rest ih =>
    simp only [scan_items] at h
    cases hs : scan_item env item c with
    | none => rw [hs] at h; exact absurd h (by simp)
    | some c2 =>
      rw [hs] at h
      obtain ⟨h1, h2⟩ := ih h
      obtain ⟨h3, h4⟩ := scan_item_frame hs
      exact ⟨h1.trans h3, h2.trans h4⟩

theorem enum_all_v4l2_devices_frame {env : Env} {c c1 : nx_v4l2_entry_cache}
    (h : enum_all_v4l2_devices env c = some c1) : c1.cached = true ∧ c1.scans = c.scans + 1 := by
  unfold enum_all_v4l2_devices at h
  cases hs : scan_items env env.dir (enum_camera_sensor env c) with
  | none => rw [hs] at h; exact absurd h (by simp)
  | some c2 =>
    rw [hs] at h
    simp only [Option.some.injEq] at h
    subst h
    refine ⟨rfl, ?_⟩
    show c2.scans + 1 = c.scans + 1
    rw [(scan_items_frame _ hs).2]
    unfold enum_camera_sensor
    rw [(loop_cached env _ c).2]

theorem cstr_length_le (l : List Nat) : (cstr l).length ≤ l.length :=
  (List.takeWhile_sublist _).length_le

theorem cstr_append_zero_length (s r : List Nat) : (cstr (s ++ 0 :: r)).length ≤ s.length := by
  induction s with
  | nil => simp [cstr]
  | cons a t ih =>
    unfold cstr at ih ⊢
    simp only [List.cons_append, List.takeWhile_cons]
    split
    · simpa using ih
    · simp

theorem entry_name_buf_strlen (content : List Nat) :
    (cstr (entry_name_buf content)).length + 1 ≤ DEVNAME_SIZE := by
  unfold entry_name_buf
  have hl : (content.take (DEVNAME_SIZE - 1)).length ≤ DEVNAME_SIZE - 1 :=
    List.length_take_le _ _
  unfold DEVNAME_SIZE at hl ⊢
  generalize List.take (64 - 1) content = s at hl ⊢
  obtain ⟨k, hk⟩ : ∃ k, 64 - s.length = k + 1 := ⟨63 - s.length, by omega⟩
  rw [hk]
  have := cstr_append_zero_length s (List.replicate k 0)
  simp only [zeros, List.replicate_succ]
  omega

theorem get_sensor_info_from_some (c : nx_v4l2_entry_cache) (name : List Nat) :
    ∀ (fuel s i : Nat), get_sensor_info_from c name fuel s = some i →
      s ≤ i ∧ i < s + fuel ∧ (c.entries 0 i).exist = true := by
  intro fuel
  induction fuel with
  | zero => intro s i h; simp [get_sensor_info_from] at h
  | succ n ih =>
    intro s i h
    unfold get_sensor_info_from at h
    simp only [nx_sensor_subdev_toNat] at h
    split_ifs at h with hm
    · simp only [Option.some.injEq] at h
      subst h
      simp only [Bool.and_eq_true] at hm
      exact ⟨le_refl _, by omega, hm.1⟩
    · obtain ⟨h1, h2, h3⟩ := ih (s + 1) i h
      exact ⟨by omega, by omega, h3⟩

theorem get_type_by_name_range (type_name : List Nat) :
    get_type_by_name type_name = -EINVAL ∨
      (1 ≤ get_type_by_name type_name ∧ get_type_by_name type_name ≤ 6) := by
  unfold get_type_by_name
  split_ifs <;> simp [nx_clipper_subdev, nx_decimator_subdev, nx_csi_subdev, nx_mpegts_video,
    nx_clipper_video, nx_decimator_video]

/-- What `find_v4l2_entry_by_name` can return: `NULL`, an existing sensor entry
found by the cross-reference search, or the slot of a classified name. -/
theorem find_v4l2_entry_by_name_cases {c : nx_v4l2_entry_cache} {name : List Nat} {module0 : Int}
    {p : EntryPtr} (h : find_v4l2_entry_by_name c name module0 = some p) :
    p = EntryPtr.null ∨
    (∃ i, i < MAX_CAMERA_INSTANCE_NUM ∧ p = EntryPtr.slot 0 (i : Int)
        ∧ (c.entries 0 i).exist = true
        ∧ get_sensor_info_from c name MAX_CAMERA_INSTANCE_NUM 0 = some i) ∨
    (∃ type_name module, sscanf_name name module0 = some (type_name, module)
        ∧ 1 ≤ get_type_by_name type_name ∧ get_type_by_name type_name ≤ 6
        ∧ p = EntryPtr.slot (get_type_by_name type_name) module) := by
  unfold find_v4l2_entry_by_name at h
  cases hs : sscanf_name name module0 with
  | none => rw [hs] at h; exact absurd h (by simp)
  | some r =>
    obtain ⟨type_name, module⟩ := r
    rw [hs] at h
    simp only at h
    split_ifs at h with h1 h2
    · exact Or.inl (Option.some.inj h).symm
    · right; left
      unfold get_sensor_info at h h2
      cases hg : get_sensor_info_from c name MAX_CAMERA_INSTANCE_NUM 0 with
      | none => rw [hg] at h2; simp [ENODEV] at h2
      | some i =>
        rw [hg] at h
        obtain ⟨_, hlt, hex⟩ := get_sensor_info_from_some c name _ _ _ hg
        refine ⟨i, by omega, ?_, hex, rfl⟩
        simp only [find_v4l2_entry, Option.some.injEq] at h
        rw [← h]; rfl
    · right; right
      refine ⟨type_name, module, rfl, ?_, ?_, ?_⟩
      · rcases get_type_by_name_range type_name with hr | hr
        · rw [hr] at h1; simp [EINVAL] at h1
        · exact hr.1
      · rcases get_type_by_name_range type_name with hr | hr
        · rw [hr] at h1; simp [EINVAL] at h1
        · exact hr.2
      · simp only [find_v4l2_entry, Option.some.injEq] at h
        exact h.symm

theorem store_device_total (env : Env) (item : DirItem) (entry_name : List Nat)
    (e : nx_v4l2_entry) (h1 : (cstr entry_name).length + 1 ≤ DEVNAME_SIZE)
    (h2 : (bytes "/dev/" ++ cstr item.d_name).length + 1 ≤ DEVNODE_SIZE) :
    ∃ e1, store_device env item entry_name e = some e1 := by
  have h3 : (cstr (bytes "/dev/" ++ cstr item.d_name)).length + 1 ≤ DEVNODE_SIZE :=
    le_trans (Nat.add_le_add_right (cstr_length_le _) 1) h2
  unfold store_device strcpy
  simp only [h1, h3, if_true]
  split_ifs
  · exact ⟨_, rfl⟩
  · exact ⟨_, rfl⟩

theorem scan_item_total (env : Env) (item : DirItem) (c : nx_v4l2_entry_cache)
    (hs : item_safe item = true) : ∃ c1, scan_item env item c = some c1 := by
  unfold item_safe at hs
  simp only [Bool.and_eq_true, decide_eq_true_eq] at hs
  obtain ⟨hd, hn⟩ := hs
  have hp : ¬ SYSFS_PATH_SIZE < (cstr item.d_name ++ bytes "/name").length + 1 := by
    have e1 : (bytes "/name").length = 5 := rfl
    have e2 : (bytes "/dev/").length = 5 := rfl
    simp only [List.length_append, e1, e2, DEVNODE_SIZE] at hd ⊢
    unfold SYSFS_PATH_SIZE
    omega
  unfold scan_item
  split_ifs with h1 h2
  · exact ⟨_, rfl⟩
  · exact ⟨_, rfl⟩
  · cases hna : item.name_attr with
    | open_failed => exact ⟨_, rfl⟩
    | read_failed => exact ⟨_, rfl⟩
    | data content =>
      rw [hna] at hn
      simp only at hn ⊢
      split_ifs with h4
      · exact ⟨_, rfl⟩
      · cases hf : find_v4l2_entry_by_name c (entry_name_buf content) item.stack_module with
        | none =>
          exfalso
          unfold find_v4l2_entry_by_name at hf
          cases hsc : sscanf_name (entry_name_buf content) item.stack_module with
          | none => rw [hsc] at hn; simp at hn
          | some r =>
            rw [hsc] at hf
            simp only at hf
            split_ifs at hf
        | some p =>
          have hb : ∀ t m, p = EntryPtr.slot t m → in_bounds t m = true := by
            intro t m hp
            rcases find_v4l2_entry_by_name_cases hf with h | ⟨i, hi, h, _⟩ | ⟨tn, md, hsc, _, _, h⟩
            · rw [h] at hp; exact absurd hp (by simp)
            · rw [h] at hp
              simp only [EntryPtr.slot.injEq] at hp
              rw [← hp.1, ← hp.2]
              unfold MAX_CAMERA_INSTANCE_NUM at hi
              simp only [in_bounds, nx_v4l2_max, MAX_CAMERA_INSTANCE_NUM, Bool.and_eq_true,
                decide_eq_true_eq]
              omega
            · rw [hsc] at hn
              simp only [Bool.or_eq_true, decide_eq_true_eq] at hn
              rw [h] at hp
              simp only [EntryPtr.slot.injEq] at hp
              rw [← hp.1, ← hp.2]
              rcases hn with hn | hn
              · omega
              · exact hn
          cases p with
          | null => exact ⟨_, rfl⟩
          | slot t m =>
            have hbt := hb t m rfl
            simp only [read_entry, hbt, if_true]
            obtain ⟨e1, he1⟩ := store_device_total env item (entry_name_buf content)
              (c.entries t.toNat m.toNat) (entry_name_buf_strlen content) hd
            rw [he1]
            simp only [write_entry, hbt, if_true]
            exact ⟨_, rfl⟩

theorem scan_items_total (env : Env) (l : List DirItem) (hs : l.all item_safe = true)
    (c : nx_v4l2_entry_cache) : ∃ c1, scan_items env l c = some c1 := by
  induction l generalizing c with
  | nil => exact ⟨c, rfl⟩
  | cons item rest ih =>
    simp only [List.all_cons, Bool.and_eq_true] at hs
    obtain ⟨c2, h2⟩ := scan_item_total env item c hs.1
    obtain ⟨c3, h3⟩ := ih hs.2 c2
    exact ⟨c3, by simp only [scan_items, h2, h3]⟩

/-- On a safe environment the scan is defined. -/
theorem enum_all_v4l2_devices_total (env : Env) (hs : env_safe env = true)
    (c : nx_v4l2_entry_cache) : ∃ c1, enum_all_v4l2_devices env c = some c1 := by
  obtain ⟨c2, h2⟩ := scan_items_total env env.dir hs (enum_camera_sensor env c)
  refine ⟨{ c2 with cached := true, scans := c2.scans + 1 }, ?_⟩
  simp only [enum_all_v4l2_devices, h2]

/-! ## Idempotence of population -/

/-- C4: from a cache with `cached = false`, a first call `nx_v4l2_get_video_path(type,
module)` that returns has run the device scan exactly once (the count of scans
grew by one) and leaves `cached = true`; a second call with the same arguments,
in whatever environment, runs no scan, and returns the same cache and the same
result.  On a safe environment and for a slot inside the table the first call
does return. -/
theorem resolver_scans_once (env env2 : Env) (c : nx_v4l2_entry_cache) (type : Int)
    (module : Nat) (hc : c.cached = false) :
    (∀ c1 r, nx_v4l2_get_video_path env c type module = some (c1, r) →
      enum_all_v4l2_devices env c = some c1 ∧
      c1.cached = true ∧ c1.scans = c.scans + 1 ∧
      nx_v4l2_get_video_path env2 c1 type module = some (c1, r)) ∧
    (env_safe env = true → in_bounds type (module : Int) = true →
      ∃ c1 r, nx_v4l2_get_video_path env c type module = some (c1, r)) := by
  constructor
  · intro c1 r h
    unfold nx_v4l2_get_video_path scan_if_needed at h
    simp only [hc, Bool.not_false, if_true] at h
    cases hs : enum_all_v4l2_devices env c with
    | none => rw [hs] at h; exact absurd h (by simp)
    | some c2 =>
      rw [hs] at h
      simp only at h
      obtain ⟨hcached, hscans⟩ := enum_all_v4l2_devices_frame hs
      have hc12 : c1 = c2 := by
        cases hr : read_entry c2 type (module : Int) with
        | none => rw [hr] at h; exact absurd h (by simp)
        | some e =>
          rw [hr] at h
          simp only at h
          split_ifs at h <;> simp only [Option.some.injEq, Prod.mk.injEq] at h <;> exact h.1.symm
      subst hc12
      refine ⟨rfl, hcached, hscans, ?_⟩
      unfold nx_v4l2_get_video_path scan_if_needed
      simp only [hcached, Bool.not_true, Bool.false_eq_true, if_false]
      exact h
  · intro hsafe hb
    obtain ⟨c2, h2⟩ := enum_all_v4l2_devices_total env hsafe c
    unfold nx_v4l2_get_video_path scan_if_needed
    simp only [hc, Bool.not_false, if_true, h2, read_entry, hb]
    split_ifs
    · exact ⟨_, _, rfl⟩
    · exact ⟨_, _, rfl⟩

/-- Witness for C4: the first resolver call on the cache at process start. -/
theorem resolver_scans_once_witness :
    (∀ c1 r, nx_v4l2_get_video_path sample_env cache_init nx_clipper_video 0 = some (c1, r) →
      enum_all_v4l2_devices sample_env cache_init = some c1 ∧
      c1.cached = true ∧ c1.scans = cache_init.scans + 1 ∧
      nx_v4l2_get_video_path three_sizes_env c1 nx_clipper_video 0 = some (c1, r)) ∧
    (env_safe sample_env = true → in_bounds nx_clipper_video ((0 : Nat) : Int) = true →
      ∃ c1 r, nx_v4l2_get_video_path sample_env cache_init nx_clipper_video 0 = some (c1, r)) :=
  resolver_scans_once sample_env three_sizes_env cache_init nx_clipper_video 0 rfl

/-! ## Invalidation -/

/-- C9: `nx_v4l2_cleanup` changes only the `cached` flag: afterwards `cached = false`
and the table of entries (every field of every entry) is what it was. -/
theorem cleanup_clears_only_cached (c : nx_v4l2_entry_cache) :
    (nx_v4l2_cleanup c).cached = false ∧ (nx_v4l2_cleanup c).entries = c.entries ∧
    (nx_v4l2_cleanup c).scans = c.scans ∧
    ∀ t m, (nx_v4l2_cleanup c).entries t m = c.entries t m :=
  ⟨rfl, rfl, rfl, fun _ _ => rfl⟩

/-! ## Sensor absence sentinel -/

theorem read_buf_sentinel : strcmp_eq (bytes "no exist") (read_buf (bytes "no exist")) = true := by
  decide

/-- C8 as amended: when the record read for sensor index `i` is exactly the text
"no exist", the iteration of `enum_camera_sensor` for `i` alters nothing: the
whole cache is left as it was.  So the slot of `i` keeps `exist = false` when
it was absent before, as it is in a scan of the cache at process start, and a
slot that an earlier scan left existing keeps `exist = true`; and the complete
`enum_camera_sensor` leaves the slot of `i` as it was. -/
theorem sensor_absence_sentinel (env : Env) (c : nx_v4l2_entry_cache) (i : Nat)
    (hrec : env.sensor_info i = FileRead.data (bytes "no exist")) :
    enum_camera_sensor_iter env i c = c ∧
    ((c.entries nx_sensor_subdev.toNat i).exist = false →
      ((enum_camera_sensor_iter env i c).entries nx_sensor_subdev.toNat i).exist = false) ∧
    ((c.entries nx_sensor_subdev.toNat i).exist = true →
      ((enum_camera_sensor_iter env i c).entries nx_sensor_subdev.toNat i).exist = true) ∧
    (enum_camera_sensor env c).entries nx_sensor_subdev.toNat i
      = c.entries nx_sensor_subdev.toNat i := by
  have h1 : enum_camera_sensor_iter env i c = c := by
    unfold enum_camera_sensor_iter
    rw [hrec]
    simp only [read_buf_sentinel, if_true]
  refine ⟨h1, ?_, ?_, ?_⟩
  · intro h
    rw [h1]; exact h
  · intro h
    rw [h1]; exact h
  · rw [enum_camera_sensor_entries]
    have h2 : sensor_slot_after env i (c.entries 0 i) = c.entries 0 i := by
      unfold sensor_slot_after
      rw [hrec]
      simp only [read_buf_sentinel, if_true]
    simp only [nx_sensor_subdev_toNat, h2, true_and]
    split_ifs <;> rfl

/-- Witness for C8 as amended: sensor 1 of `first_boot_env` reports "no exist" and
its slot is absent in the scanned cache `first_boot_cache`. -/
theorem sensor_absence_sentinel_witness :
    first_boot_env.sensor_info 1 = FileRead.data (bytes "no exist") ∧
    (first_boot_cache.entries nx_sensor_subdev.toNat 1).exist = false ∧
    (enum_camera_sensor_iter first_boot_env 1 first_boot_cache = first_boot_cache ∧
    ((first_boot_cache.entries nx_sensor_subdev.toNat 1).exist = false →
      ((enum_camera_sensor_iter first_boot_env 1 first_boot_cache).entries
        nx_sensor_subdev.toNat 1).exist = false) ∧
    ((first_boot_cache.entries nx_sensor_subdev.toNat 1).exist = true →
      ((enum_camera_sensor_iter first_boot_env 1 first_boot_cache).entries
        nx_sensor_subdev.toNat 1).exist = true) ∧
    (enum_camera_sensor first_boot_env first_boot_cache).entries nx_sensor_subdev.toNat 1
      = first_boot_cache.entries nx_sensor_subdev.toNat 1) :=
  ⟨rfl, by decide, sensor_absence_sentinel first_boot_env first_boot_cache 1 rfl⟩

/-! ## Reachable caches: absent entries are zero -/

theorem probe_sizes_exist (dev : Device) (l : List Nat) (e : nx_v4l2_entry) :
    (probe_sizes dev l e).exist = e.exist := by
  induction l generalizing e with
  | nil => rfl
  | cons i rest ih =>
    unfold probe_sizes
    simp only
    split_ifs
    all_goals first | rfl | exact ih _

theorem enum_all_supported_resolutions_exist (env : Env) (e : nx_v4l2_entry) :
    (enum_all_supported_resolutions env e).exist = e.exist := by
  unfold enum_all_supported_resolutions
  cases env.open_rd (cstr e.devnode) with
  | none => rfl
  | some dev => exact probe_sizes_exist dev _ e

theorem store_device_exist {env : Env} {item : DirItem} {entry_name : List Nat}
    {e e1 : nx_v4l2_entry} (h : store_device env item entry_name e = some e1) :
    e1.exist = true := by
  unfold store_device at h
  simp only at h
  cases h1 : strcpy DEVNAME_SIZE e.devname entry_name with
  | none => rw [h1] at h; exact absurd h (by simp)
  | some dn =>
    rw [h1] at h
    simp only at h
    cases h2 : strcpy DEVNODE_SIZE e.devnode (bytes "/dev/" ++ cstr item.d_name) with
    | none => rw [h2] at h; exact absurd h (by simp)
    | some nd =>
      rw [h2] at h
      simp only at h
      split_ifs at h <;> simp only [Option.some.injEq] at h <;> rw [← h]
      rw [enum_all_supported_resolutions_exist]

theorem absent_zero_store {c : nx_v4l2_entry_cache} (t m : Nat) (e1 : nx_v4l2_entry)
    (he : e1.exist = true) (h : absent_zero c) :
    absent_zero { c with entries := fun t1 m1 =>
      if t1 = t ∧ m1 = m then e1 else c.entries t1 m1 } := by
  intro t1 m1 hx
  simp only at hx ⊢
  split_ifs at hx ⊢ with hs
  · rw [he] at hx; exact absurd hx (by simp)
  · exact h t1 m1 hx

theorem absent_zero_scan_item {env : Env} {item : DirItem} {c c1 : nx_v4l2_entry_cache}
    (hs : scan_item env item c = some c1) (h : absent_zero c) : absent_zero c1 := by
  rcases scan_item_cases hs with rfl | ⟨_, t, m, e1, _, _, _, hst, rfl⟩
  · exact h
  · exact absent_zero_store _ _ e1 (store_device_exist hst) h

theorem absent_zero_scan_items {env : Env} (l : List DirItem) {c c1 : nx_v4l2_entry_cache}
    (hs : scan_items env l c = some c1) (h : absent_zero c) : absent_zero c1 := by
  induction l generalizing c with
  | nil =>
    simp only [scan_items, Option.some.injEq] at hs
    subst hs; exact h
  | cons item rest ih =>
    simp only [scan_items] at hs
    cases h2 : scan_item env item c with
    | none => rw [h2] at hs; exact absurd hs (by simp)
    | some c2 =>
      rw [h2] at hs
      exact ih hs (absent_zero_scan_item h2 h)

theorem sensor_slot_after_exist (env : Env) (i : Nat) (e : nx_v4l2_entry) :
    sensor_slot_after env i e = e ∨ (sensor_slot_after env i e).exist = true := by
  unfold sensor_slot_after
  cases env.sensor_info i with
  | open_failed => exact Or.inl rfl
  | read_failed => exact Or.inl rfl
  | data content =>
    simp only
    split_ifs
    · exact Or.inl rfl
    · exact Or.inr rfl

theorem absent_zero_enum_camera_sensor (env : Env) {c : nx_v4l2_entry_cache}
    (h : absent_zero c) : absent_zero (enum_camera_sensor env c) := by
  intro t m hx
  rw [enum_camera_sensor_entries] at hx ⊢
  split_ifs at hx ⊢ with hs
  · rcases sensor_slot_after_exist env m (c.entries 0 m) with h1 | h1
    · rw [h1] at hx ⊢
      exact h 0 m hx
    · rw [h1] at hx; exact absurd hx (by simp)
  · exact h t m hx

theorem absent_zero_enum_all {env : Env} {c c1 : nx_v4l2_entry_cache}
    (hs : enum_all_v4l2_devices env c = some c1) (h : absent_zero c) : absent_zero c1 := by
  unfold enum_all_v4l2_devices at hs
  cases h2 : scan_items env env.dir (enum_camera_sensor env c) with
  | none => rw [h2] at hs; exact absurd hs (by simp)
  | some c2 =>
    rw [h2] at hs
    simp only [Option.some.injEq] at hs
    have h3 := absent_zero_scan_items _ h2 (absent_zero_enum_camera_sensor env h)
    rw [← hs]
    exact h3

theorem absent_zero_scan_if_needed {env : Env} {c c1 : nx_v4l2_entry_cache}
    (hs : scan_if_needed env c = some c1) (h : absent_zero c) : absent_zero c1 := by
  unfold scan_if_needed at hs
  split_ifs at hs
  · exact absent_zero_enum_all hs h
  · simp only [Option.some.injEq] at hs
    subst hs; exact h

/-- A step of `nx_v4l2_print_all_video_entry` changes at most the slot `[j][i]`,
only when its entry exists, and the entry stays existing. -/
theorem print_video_entry_at_spec {j i : Nat} {c c1 : nx_v4l2_entry_cache}
    (h : print_video_entry_at j i c = some c1) :
    c1.cached = c.cached ∧ c1.scans = c.scans ∧
    (∀ t m, ¬ (t = j ∧ m = i) → c1.entries t m = c.entries t m) ∧
    (c1.entries j i).exist = (c.entries j i).exist ∧
    ((c.entries j i).exist = false → c1 = c) := by
  unfold print_video_entry_at at h
  by_cases hex : (c.entries j i).exist = true
  · rw [if_pos hex] at h
    split at h
    · exact absurd h (by simp)
    · dsimp only at h
      split at h
      · exact absurd h (by simp)
      · split at h
        · exact absurd h (by simp)
        · simp only [Option.some.injEq] at h
          rw [← h]
          refine ⟨rfl, rfl, ?_, ?_, ?_⟩
          · intro t m hne
            simp only [hne, if_false]
          · simp only [and_self, if_true]
          · intro hf
            rw [hex] at hf
            exact absurd hf (by simp)
  · rw [if_neg hex] at h
    simp only [Option.some.injEq] at h
    subst h
    exact ⟨rfl, rfl, fun _ _ _ => rfl, rfl, fun _ => rfl⟩

theorem absent_zero_print_video_row (j : Nat) (l : List Nat) {c c1 : nx_v4l2_entry_cache}
    (hs : print_video_row j l c = some c1) (h : absent_zero c) :
    absent_zero c1 ∧ c1.cached = c.cached ∧ c1.scans = c.scans := by
  induction l generalizing c with
  | nil =>
    simp only [print_video_row, Option.some.injEq] at hs
    subst hs; exact ⟨h, rfl, rfl⟩
  | cons i rest ih =>
    simp only [print_video_row] at hs
    cases h2 : print_video_entry_at j i c with
    | none => rw [h2] at hs; exact absurd hs (by simp)
    | some c2 =>
      rw [h2] at hs
      simp only at hs
      obtain ⟨p1, p2, p3, p4, p5⟩ := print_video_entry_at_spec h2
      have h3 : absent_zero c2 := by
        intro t m hx
        by_cases hs : t = j ∧ m = i
        · obtain ⟨rfl, rfl⟩ := hs
          rw [p4] at hx
          rw [p5 hx]
          exact h _ _ hx
        · rw [p3 t m hs] at hx ⊢
          exact h t m hx
      obtain ⟨b1, b2, b3⟩ := ih hs h3
      exact ⟨b1, b2.trans p1, b3.trans p2⟩

theorem absent_zero_print_video_rows (l : List Nat) {c c1 : nx_v4l2_entry_cache}
    (hs : print_video_rows l c = some c1) (h : absent_zero c) :
    absent_zero c1 ∧ c1.cached = c.cached ∧ c1.scans = c.scans := by
  induction l generalizing c with
  | nil =>
    simp only [print_video_rows, Option.some.injEq] at hs
    subst hs; exact ⟨h, rfl, rfl⟩
  | cons j rest ih =>
    simp only [print_video_rows] at hs
    cases h2 : print_video_row j (List.range MAX_CAMERA_INSTANCE_NUM) c with
    | none => rw [h2] at hs; exact absurd hs (by simp)
    | some c2 =>
      rw [h2] at hs
      obtain ⟨a1, a2, a3⟩ := absent_zero_print_video_row j _ h2 h
      obtain ⟨b1, b2, b3⟩ := ih hs a1
      exact ⟨b1, b2.trans a2, b3.trans a3⟩

theorem absent_zero_print_all_video {env : Env} {c c1 : nx_v4l2_entry_cache}
    (hs : nx_v4l2_print_all_video_entry env c = some c1) (h : absent_zero c) :
    absent_zero c1 := by
  unfold nx_v4l2_print_all_video_entry at hs
  cases h2 : scan_if_needed env c with
  | none => rw [h2] at hs; exact absurd hs (by simp)
  | some c2 =>
    rw [h2] at hs
    exact (absent_zero_print_video_rows _ hs (absent_zero_scan_if_needed h2 h)).1

theorem absent_zero_enumerate {env : Env} {c c1 : nx_v4l2_entry_cache}
    (hs : nx_v4l2_enumerate env c = some c1) (h : absent_zero c) : absent_zero c1 := by
  unfold nx_v4l2_enumerate at hs
  split_ifs at hs with hc
  · cases h2 : enum_all_v4l2_devices env c with
    | none => rw [h2] at hs; exact absurd hs (by simp)
    | some c2 =>
      rw [h2] at hs
      exact absent_zero_print_all_video hs (absent_zero_enum_all h2 h)
  · exact absent_zero_print_all_video hs h

theorem absent_zero_open_device {env : Env} {c c1 : nx_v4l2_entry_cache} {type module fd : Int}
    (hs : nx_v4l2_open_device env c type module = some (c1, fd)) (h : absent_zero c) :
    absent_zero c1 := by
  unfold nx_v4l2_open_device at hs
  have key : ∀ c2, (if !c.cached then nx_v4l2_enumerate env c else some c) = some c2 →
      absent_zero c2 := by
    intro c2 h2
    split_ifs at h2
    · exact absent_zero_enumerate h2 h
    · simp only [Option.some.injEq] at h2
      subst h2; exact h
  cases h2 : (if !c.cached then nx_v4l2_enumerate env c else some c) with
  | none => rw [h2] at hs; exact absurd hs (by simp)
  | some c2 =>
    rw [h2] at hs
    simp only [find_v4l2_entry] at hs
    split at hs
    · exact absurd hs (by simp)
    · simp only [Option.some.injEq, Prod.mk.injEq] at hs
      rw [← hs.1]; exact key c2 h2

theorem absent_zero_video_path {env : Env} {c c1 : nx_v4l2_entry_cache} {type : Int} {module : Nat}
    {r : Option (List Nat)}
    (hs : nx_v4l2_get_video_path env c type module = some (c1, r)) (h : absent_zero c) :
    absent_zero c1 := by
  unfold nx_v4l2_get_video_path at hs
  cases h2 : scan_if_needed env c with
  | none => rw [h2] at hs; exact absurd hs (by simp)
  | some c2 =>
    rw [h2] at hs
    simp only at hs
    split at hs
    · exact absurd hs (by simp)
    · split_ifs at hs <;> simp only [Option.some.injEq, Prod.mk.injEq] at hs <;>
        (rw [← hs.1]; exact absent_zero_scan_if_needed h2 h)

theorem absent_zero_camera_type {env : Env} {c c1 : nx_v4l2_entry_cache} {video : List Nat}
    {m0 i0 : Int} {st : Int × Int × Int}
    (hs : nx_v4l2_get_camera_type env c video m0 i0 = some (c1, st)) (h : absent_zero c) :
    absent_zero c1 := by
  unfold nx_v4l2_get_camera_type at hs
  cases h2 : scan_if_needed env c with
  | none => rw [h2] at hs; exact absurd hs (by simp)
  | some c2 =>
    rw [h2] at hs
    simp only at hs
    split at hs
    · exact absurd hs (by simp)
    · simp only [Option.some.injEq, Prod.mk.injEq] at hs
      rw [← hs.1]; exact absent_zero_scan_if_needed h2 h

/-- In every reachable cache an entry that does not exist is all zero. -/
theorem reachable_absent_zero {c : nx_v4l2_entry_cache} (h : Reachable c) : absent_zero c := by
  induction h with
  | init => intro t m _; rfl
  | cleanup _ ih => exact ih
  | print_all env _ hs ih => exact absent_zero_scan_if_needed hs ih
  | print_video env _ hs ih => exact absent_zero_print_all_video hs ih
  | enumerate env _ hs ih => exact absent_zero_enumerate hs ih
  | open_device env type module fd _ hs ih => exact absent_zero_open_device hs ih
  | video_path env type module r _ hs ih => exact absent_zero_video_path hs ih
  | camera_type env video m0 i0 st _ hs ih => exact absent_zero_camera_type hs ih

/-! ## Capability flags -/

theorem in_bounds_sensor {i : Int} (h0 : 0 ≤ i) (h1 : i < 12) :
    in_bounds nx_sensor_subdev i = true := by
  simp [in_bounds, nx_sensor_subdev, nx_v4l2_max, MAX_CAMERA_INSTANCE_NUM, h0, h1]

theorem is_mipi_camera_eq (c : nx_v4l2_entry_cache) {i : Int} (h0 : 0 ≤ i) (h1 : i < 12) :
    nx_v4l2_is_mipi_camera c i = some (c.entries 0 i.toNat).is_mipi := by
  unfold nx_v4l2_is_mipi_camera
  simp only [find_v4l2_entry, read_entry, in_bounds_sensor h0 h1, if_true, nx_sensor_subdev_toNat]
  cases (c.entries 0 i.toNat).is_mipi <;> rfl

theorem is_interlaced_camera_eq (c : nx_v4l2_entry_cache) {i : Int} (h0 : 0 ≤ i) (h1 : i < 12) :
    nx_v4l2_is_interlaced_camera c i = some (c.entries 0 i.toNat).interlaced := by
  unfold nx_v4l2_is_interlaced_camera
  simp only [find_v4l2_entry, read_entry, in_bounds_sensor h0 h1, if_true, nx_sensor_subdev_toNat]
  cases (c.entries 0 i.toNat).interlaced <;> rfl

/-- C10: in every cache reachable from the cache at process start through the
public entry points (scans, cleanup, lookups), for every instance index
`0 <= index < 12`: `nx_v4l2_is_mipi_camera(index)` and
`nx_v4l2_is_interlaced_camera(index)` return the stored `is_mipi` and
`interlaced` flags of the sensor entry of that index, and both return false when
that entry does not exist. -/
theorem camera_flags_default_false (c : nx_v4l2_entry_cache) (hr : Reachable c) (index : Int)
    (h0 : 0 ≤ index) (h1 : index < (MAX_CAMERA_INSTANCE_NUM : Int)) :
    nx_v4l2_is_mipi_camera c index
      = some (c.entries nx_sensor_subdev.toNat index.toNat).is_mipi ∧
    nx_v4l2_is_interlaced_camera c index
      = some (c.entries nx_sensor_subdev.toNat index.toNat).interlaced ∧
    ((c.entries nx_sensor_subdev.toNat index.toNat).exist = false →
      nx_v4l2_is_mipi_camera c index = some false ∧
      nx_v4l2_is_interlaced_camera c index = some false) := by
  have h12 : index < 12 := h1
  refine ⟨is_mipi_camera_eq c h0 h12, is_interlaced_camera_eq c h0 h12, ?_⟩
  intro hx
  rw [is_mipi_camera_eq c h0 h12, is_interlaced_camera_eq c h0 h12]
  simp only [nx_sensor_subdev_toNat] at hx
  rw [reachable_absent_zero hr 0 index.toNat hx]
  exact ⟨rfl, rfl⟩

/-! ## Opening a device -/

theorem sys_open_rw_ge (env : Env) (path : List Nat) : -1 ≤ sys_open_rw env path := by
  unfold sys_open_rw
  split_ifs
  · exact le_refl _
  · split
    · omega
    · exact le_refl _

/-- C7 (the code does not do what the claim says): `nx_v4l2_open_device` never
returns `-ENODEV`, for `find_v4l2_entry` never gives `NULL`; the value for an
entry that is absent from the cache is that of `open` on its empty `devnode`,
which is -1, the same value as for an existing entry whose device node cannot be
opened.  In `sample_env` clipper video 1 is absent and clipper video 0 exists,
and every `open` for read-write fails: both calls return -1. -/
theorem open_device_failures_coincide :
    (∀ (env : Env) (c : nx_v4l2_entry_cache) (type module : Int),
      (nx_v4l2_open_device env c type module).map Prod.snd ≠ some (-ENODEV)) ∧
    (nx_v4l2_open_device sample_env cache_init nx_clipper_video 1).map
      (fun p => ((p.1.entries 4 1).exist, p.2)) = some (false, -1) ∧
    (nx_v4l2_open_device sample_env cache_init nx_clipper_video 0).map
      (fun p => ((p.1.entries 4 0).exist, p.2)) = some (true, -1) := by
  refine ⟨?_, by decide, by decide⟩
  intro env c type module
  cases h : nx_v4l2_open_device env c type module with
  | none => simp
  | some p =>
    obtain ⟨c1, r⟩ := p
    simp only [Option.map_some', ne_eq, Option.some.injEq]
    unfold nx_v4l2_open_device at h
    split at h
    · exact absurd h (by simp)
    · simp only [find_v4l2_entry] at h
      split at h
      · exact absurd h (by simp)
      · simp only [Option.some.injEq, Prod.mk.injEq] at h
        have := sys_open_rw_ge env (by assumption : nx_v4l2_entry).devnode
        rw [← h.2]
        unfold ENODEV
        omega

/-! ## Reverse resolution -/

theorem getD_eq_some {α : Type} (o : Option α) (d : α) (h : o.isSome = true) :
    o = some (o.getD d) := by
  cases o with
  | none => exact absurd h (by simp)
  | some a => rfl

theorem renumbered_cache_reachable : Reachable renumbered_cache := by
  have h1 : print_all_nx_v4l2_entry first_boot_env cache_init = some first_boot_cache :=
    getD_eq_some _ _ (by decide)
  have h2 : print_all_nx_v4l2_entry renumbered_env (nx_v4l2_cleanup first_boot_cache)
      = some renumbered_cache := getD_eq_some _ _ (by decide)
  exact Reachable.print_all renumbered_env
    (Reachable.cleanup (Reachable.print_all first_boot_env Reachable.init h1)) h2

/-- C6, counterexample: after a scan, a cleanup and a rescan in which the node
`video0` moved from clipper video 0 to clipper video 1, the reachable cache holds
the existing entry clipper video 1 with path "/dev/video0", sensor 1 is not MIPI,
yet `nx_v4l2_get_camera_type("/dev/video0")` stops at the stale entry clipper
video 0 and reports the MIPI flag of sensor 0. -/
theorem reverse_resolution_counterexample :
    Reachable renumbered_cache ∧ renumbered_cache.cached = true ∧
    (renumbered_cache.entries nx_clipper_video.toNat 1).exist = true ∧
    cstr (renumbered_cache.entries nx_clipper_video.toNat 1).devnode = bytes "/dev/video0" ∧
    nx_v4l2_is_mipi_camera renumbered_cache 1 = some false ∧
    nx_v4l2_is_interlaced_camera renumbered_cache 1 = some false ∧
    (nx_v4l2_get_camera_type renumbered_env renumbered_cache (bytes "/dev/video0") 0 0).map
      Prod.snd = some (0, 1, 0) := by
  refine ⟨renumbered_cache_reachable, by decide, by decide, by decide, by decide, by decide,
    by decide⟩

theorem video_categories_eq : video_categories = [4, 5] := by decide

theorem path_matches_iff (c : nx_v4l2_entry_cache) (video : List Nat) (j i : Nat) :
    ((c.entries j i).exist && strcmp_eq (c.entries j i).devnode video) = true
      ↔ path_matches c video j i := by
  unfold path_matches strcmp_eq
  simp only [Bool.and_eq_true, beq_iff_eq]

theorem camera_type_row_miss (c : nx_v4l2_entry_cache) (video : List Nat) (j : Nat)
    (l : List Nat) (st : Int × Int × Int) (h : ∀ i ∈ l, ¬ path_matches c video j i) :
    camera_type_row c video j l st = some st := by
  induction l with
  | nil => rfl
  | cons i rest ih =>
    unfold camera_type_row
    have h1 : ¬ ((c.entries j i).exist && strcmp_eq (c.entries j i).devnode video) = true :=
      fun hm => h i (List.mem_cons_self _ _) ((path_matches_iff c video j i).mp hm)
    simp only [h1, if_false]
    exact ih (fun k hk => h k (List.mem_cons_of_mem _ hk))

theorem camera_type_row_hit (c : nx_v4l2_entry_cache) (video : List Nat) (j i : Nat)
    (l : List Nat) (st : Int × Int × Int) (hi : i < 12) (hmem : i ∈ l)
    (huniq : ∀ k ∈ l, path_matches c video j k → k = i) (hm : path_matches c video j i) :
    camera_type_row c video j l st
      = some (0, int_of_bool (c.entries 0 i).is_mipi, int_of_bool (c.entries 0 i).interlaced) := by
  induction l with
  | nil => exact absurd hmem (List.not_mem_nil _)
  | cons k rest ih =>
    unfold camera_type_row
    by_cases hk : path_matches c video j k
    · have hki : k = i := huniq k (List.mem_cons_self _ _) hk
      subst hki
      have h1 := (path_matches_iff c video j k).mpr hk
      simp only [h1, if_true]
      rw [is_mipi_camera_eq c (Int.natCast_nonneg k) (by omega),
        is_interlaced_camera_eq c (Int.natCast_nonneg k) (by omega)]
      simp only [Int.toNat_ofNat]
    · have h1 : ¬ ((c.entries j k).exist && strcmp_eq (c.entries j k).devnode video) = true :=
        fun hm => hk ((path_matches_iff c video j k).mp hm)
      simp only [h1, if_false]
      have hne : i ≠ k := fun h => hk (h ▸ hm)
      have hmem2 : i ∈ rest := by
        rcases List.mem_cons.mp hmem with h | h
        · exact absurd h hne
        · exact h
      exact ih hmem2 (fun k2 hk2 => huniq k2 (List.mem_cons_of_mem _ hk2))

/-- C6 as amended: in a populated cache (`cached = true`), for an existing entry
of a video category (clipper video or decimator video) stored at index `i < 12`
whose device node path is stored by no other existing entry of the two video
categories, `nx_v4l2_get_camera_type` on that path returns 0 and reports the
flags of sensor `i`; and for a path that no existing entry of the two video
categories stores it returns -1 and leaves both outputs as they were.  The cache
is unchanged in both cases. -/
theorem reverse_resolution_unique (env : Env) (c : nx_v4l2_entry_cache) (video : List Nat)
    (mipi interlaced : Int) (hc : c.cached = true) :
    (∀ j i, (j = nx_clipper_video.toNat ∨ j = nx_decimator_video.toNat) →
      i < MAX_CAMERA_INSTANCE_NUM → path_matches c video j i →
      (∀ j1 i1, (j1 = nx_clipper_video.toNat ∨ j1 = nx_decimator_video.toNat) →
        i1 < MAX_CAMERA_INSTANCE_NUM → path_matches c video j1 i1 → j1 = j ∧ i1 = i) →
      nx_v4l2_get_camera_type env c video mipi interlaced
        = some (c, 0, int_of_bool (c.entries nx_sensor_subdev.toNat i).is_mipi,
            int_of_bool (c.entries nx_sensor_subdev.toNat i).interlaced)) ∧
    ((∀ j i, (j = nx_clipper_video.toNat ∨ j = nx_decimator_video.toNat) →
        i < MAX_CAMERA_INSTANCE_NUM → ¬ path_matches c video j i) →
      nx_v4l2_get_camera_type env c video mipi interlaced = some (c, -1, mipi, interlaced)) := by
  have e4 : nx_clipper_video.toNat = 4 := rfl
  have e5 : nx_decimator_video.toNat = 5 := rfl
  have hscan : scan_if_needed env c = some c := by
    unfold scan_if_needed
    simp only [hc, Bool.not_true, Bool.false_eq_true, if_false]
  unfold nx_v4l2_get_camera_type
  rw [hscan, video_categories_eq]
  simp only [e4, e5, nx_sensor_subdev_toNat, MAX_CAMERA_INSTANCE_NUM]
  constructor
  · intro j i hj hi hm huniq
    rcases hj with rfl | rfl
    · have r4 := camera_type_row_hit c video 4 i (List.range 12) (-1, mipi, interlaced) hi
        (List.mem_range.mpr hi)
        (fun k hk hmk => (huniq 4 k (Or.inl rfl) (List.mem_range.mp hk) hmk).2) hm
      have r5 := camera_type_row_miss c video 5 (List.range 12)
        (0, int_of_bool (c.entries 0 i).is_mipi, int_of_bool (c.entries 0 i).interlaced)
        (fun k hk hmk => absurd (huniq 5 k (Or.inr rfl) (List.mem_range.mp hk) hmk).1 (by decide))
      simp only [camera_type_rows, MAX_CAMERA_INSTANCE_NUM, r4, r5]
    · have r4 := camera_type_row_miss c video 4 (List.range 12) (-1, mipi, interlaced)
        (fun k hk hmk => absurd (huniq 4 k (Or.inl rfl) (List.mem_range.mp hk) hmk).1 (by decide))
      have r5 := camera_type_row_hit c video 5 i (List.range 12) (-1, mipi, interlaced) hi
        (List.mem_range.mpr hi)
        (fun k hk hmk => (huniq 5 k (Or.inr rfl) (List.mem_range.mp hk) hmk).2) hm
      simp only [camera_type_rows, MAX_CAMERA_INSTANCE_NUM, r4, r5]
  · intro hnone
    have r4 := camera_type_row_miss c video 4 (List.range 12) (-1, mipi, interlaced)
      (fun k hk => hnone 4 k (Or.inl rfl) (List.mem_range.mp hk))
    have r5 := camera_type_row_miss c video 5 (List.range 12) (-1, mipi, interlaced)
      (fun k hk => hnone 5 k (Or.inr rfl) (List.mem_range.mp hk))
    simp only [camera_type_rows, MAX_CAMERA_INSTANCE_NUM, r4, r5]

/-- Witness for C6 as amended: the cache after one scan of `first_boot_env`, where
"/dev/video0" is stored by clipper video 0 alone. -/
theorem reverse_resolution_unique_witness :
    nx_v4l2_get_camera_type first_boot_env first_boot_cache (bytes "/dev/video0") 0 0
      = some (first_boot_cache, 0,
          int_of_bool (first_boot_cache.entries nx_sensor_subdev.toNat 0).is_mipi,
          int_of_bool (first_boot_cache.entries nx_sensor_subdev.toNat 0).interlaced) :=
  (reverse_resolution_unique first_boot_env first_boot_cache (bytes "/dev/video0") 0 0
    (by decide)).1 4 0 (Or.inl rfl) (by decide) ⟨by decide, by decide⟩
    (by
      intro j1 i1 hj hi hm
      have hi12 : i1 < 12 := hi
      rcases hj with rfl | rfl <;> interval_cases i1 <;>
        first
        | exact ⟨rfl, rfl⟩
        | exact absurd hm.1 (by decide))

/-! ## Invalidate-then-rescan equivalence -/

theorem val_mix_same {α : Type} (v f : α) : val_mix v v f := Or.inl rfl

theorem strncmp_eq_stored (a b : List Nat) :
    strncmp_eq a b (strlen b) = true ↔ cstr b <+: cstr a := by
  unfold strncmp_eq strlen
  rw [List.take_length, List.prefix_iff_eq_take]
  constructor
  · intro h
    exact (eq_of_beq h).symm
  · intro h
    rw [← h]
    exact beq_self_eq_true _

theorem sensor_name_matches_iff (c : nx_v4l2_entry_cache) (name : List Nat) (i : Nat) :
    ((c.entries nx_sensor_subdev.toNat i).exist &&
        strncmp_eq name (c.entries nx_sensor_subdev.toNat i).devname
          (strlen (c.entries nx_sensor_subdev.toNat i).devname)) = true
      ↔ sensor_name_matches c name i := by
  unfold sensor_name_matches
  rw [Bool.and_eq_true, strncmp_eq_stored]

theorem get_sensor_info_from_first (c : nx_v4l2_entry_cache) (name : List Nat) :
    ∀ (fuel s i : Nat), get_sensor_info_from c name fuel s = some i →
      s ≤ i ∧ i < s + fuel ∧ sensor_name_matches c name i ∧
        ∀ k, s ≤ k → k < i → ¬ sensor_name_matches c name k := by
  intro fuel
  induction fuel with
  | zero => intro s i h; simp [get_sensor_info_from] at h
  | succ n ih =>
    intro s i h
    unfold get_sensor_info_from at h
    dsimp only at h
    split_ifs at h with hm
    · simp only [Option.some.injEq] at h
      subst h
      exact ⟨le_refl _, by omega, (sensor_name_matches_iff c name s).mp hm,
        fun k h1 h2 => absurd h2 (by omega)⟩
    · obtain ⟨h1, h2, h3, h4⟩ := ih (s + 1) i h
      refine ⟨by omega, by omega, h3, ?_⟩
      intro k hk1 hk2
      by_cases hks : k = s
      · subst hks
        exact fun hmk => hm ((sensor_name_matches_iff c name k).mpr hmk)
      · exact h4 k (by omega) hk2

theorem get_sensor_info_from_none (c : nx_v4l2_entry_cache) (name : List Nat) :
    ∀ (fuel s : Nat), get_sensor_info_from c name fuel s = none →
      ∀ k, s ≤ k → k < s + fuel → ¬ sensor_name_matches c name k := by
  intro fuel
  induction fuel with
  | zero => intro s _ k h1 h2; omega
  | succ n ih =>
    intro s h k hk1 hk2
    unfold get_sensor_info_from at h
    dsimp only at h
    split_ifs at h with hm
    by_cases hks : k = s
    · subst hks
      exact fun hmk => hm ((sensor_name_matches_iff c name k).mpr hmk)
    · exact ih (s + 1) h k (by omega) (by omega)

/-- C15: when the non-numeric prefix of a name classifies to no category
(`get_type_by_name` gives `-EINVAL`), `find_v4l2_entry_by_name` answers from the
sensor search over the 12 sensor slots: it returns the sensor slot of the lowest
index whose entry exists and whose stored name is a leading part of the given
name, and it returns `NULL` exactly when no existing sensor entry has such a
name. -/
theorem resolve_by_name_fallback (c : nx_v4l2_entry_cache) (name : List Nat) (module0 : Int)
    (type_name : List Nat) (module : Int)
    (hs : sscanf_name name module0 = some (type_name, module))
    (hu : get_type_by_name type_name = -EINVAL) :
    (∀ i, i < MAX_CAMERA_INSTANCE_NUM → sensor_name_matches c name i →
      (∀ k, k < i → ¬ sensor_name_matches c name k) →
      find_v4l2_entry_by_name c name module0 = some (EntryPtr.slot nx_sensor_subdev (i : Int))) ∧
    (find_v4l2_entry_by_name c name module0 = some EntryPtr.null ↔
      ∀ i, i < MAX_CAMERA_INSTANCE_NUM → ¬ sensor_name_matches c name i) ∧
    (find_v4l2_entry_by_name c name module0 = some EntryPtr.null ∨
      ∃ i, i < MAX_CAMERA_INSTANCE_NUM ∧ sensor_name_matches c name i ∧
        (∀ k, k < i → ¬ sensor_name_matches c name k) ∧
        find_v4l2_entry_by_name c name module0
          = some (EntryPtr.slot nx_sensor_subdev (i : Int))) := by
  have hfind : find_v4l2_entry_by_name c name module0
      = match get_sensor_info_from c name MAX_CAMERA_INSTANCE_NUM 0 with
        | some i => some (EntryPtr.slot nx_sensor_subdev (i : Int))
        | none => some EntryPtr.null := by
    unfold find_v4l2_entry_by_name get_sensor_info
    rw [hs]
    dsimp only
    rw [hu]
    cases get_sensor_info_from c name MAX_CAMERA_INSTANCE_NUM 0 with
    | none => simp [EINVAL, ENODEV]
    | some i => simp [EINVAL, nx_sensor_subdev, find_v4l2_entry]
  cases hg : get_sensor_info_from c name MAX_CAMERA_INSTANCE_NUM 0 with
  | none =>
    rw [hg] at hfind
    have hn := get_sensor_info_from_none c name _ _ hg
    refine ⟨?_, ?_, Or.inl hfind⟩
    · intro i hi hm _
      exact absurd hm (hn i (Nat.zero_le i) (by omega))
    · exact ⟨fun _ i hi => hn i (Nat.zero_le i) (by omega), fun _ => hfind⟩
  | some j =>
    rw [hg] at hfind
    obtain ⟨_, hj, hmj, hlow⟩ := get_sensor_info_from_first c name _ _ _ hg
    have hj12 : j < MAX_CAMERA_INSTANCE_NUM := by omega
    refine ⟨?_, ?_, Or.inr ⟨j, hj12, hmj, fun k hk => hlow k (Nat.zero_le k) hk, hfind⟩⟩
    · intro i hi hm hk
      have hij : i = j := by
        rcases Nat.lt_trichotomy i j with h | h | h
        · exact absurd hm (hlow i (Nat.zero_le i) h)
        · exact h
        · exact absurd hmj (hk j h)
      rw [hij]; exact hfind
    · constructor
      · intro h
        rw [hfind] at h
        exact absurd h (by simp)
      · intro h
        exact absurd hmj (h j hj12)

/-- Witness for C15: the name "ov5640" in the cache after the scan of
`first_boot_env`, where sensor 0 is stored under that name. -/
theorem resolve_by_name_fallback_witness :
    (∀ i, i < MAX_CAMERA_INSTANCE_NUM → sensor_name_matches first_boot_cache (bytes "ov5640") i →
      (∀ k, k < i → ¬ sensor_name_matches first_boot_cache (bytes "ov5640") k) →
      find_v4l2_entry_by_name first_boot_cache (bytes "ov5640") 0
        = some (EntryPtr.slot nx_sensor_subdev (i : Int))) ∧
    (find_v4l2_entry_by_name first_boot_cache (bytes "ov5640") 0 = some EntryPtr.null ↔
      ∀ i, i < MAX_CAMERA_INSTANCE_NUM →
        ¬ sensor_name_matches first_boot_cache (bytes "ov5640") i) ∧
    (find_v4l2_entry_by_name first_boot_cache (bytes "ov5640") 0 = some EntryPtr.null ∨
      ∃ i, i < MAX_CAMERA_INSTANCE_NUM ∧ sensor_name_matches first_boot_cache (bytes "ov5640") i ∧
        (∀ k, k < i → ¬ sensor_name_matches first_boot_cache (bytes "ov5640") k) ∧
        find_v4l2_entry_by_name first_boot_cache (bytes "ov5640") 0
          = some (EntryPtr.slot nx_sensor_subdev (i : Int))) :=
  resolve_by_name_fallback first_boot_cache (bytes "ov5640") 0 (bytes "ov") 5640
    (by decide) (by decide)

/-! ## Prober bound -/

/-- When every query succeeds the outer loop runs to its end: the frames of the
probed indices are stored and `list_count` is not assigned. -/
theorem probe_sizes_all_answered (sizes : Int → Nat × Nat) (ivals : Int → Nat → Nat → Nat)
    (l : List Nat) (e : nx_v4l2_entry) :
    (probe_sizes (answering_device sizes ivals) l e).list_count = e.list_count ∧
    ∀ k, (probe_sizes (answering_device sizes ivals) l e).lists k
      = if k ∈ l then answered_frame sizes ivals k else e.lists k := by
  induction l generalizing e with
  | nil => exact ⟨rfl, fun k => by simp [probe_sizes]⟩
  | cons i rest ih =>
    have hstep : probe_sizes (answering_device sizes ivals) (i :: rest) e
        = probe_sizes (answering_device sizes ivals) rest
            (set_list e i (answered_frame sizes ivals i)) := by
      rw [probe_sizes]
      simp [nx_v4l2_get_framesize, answering_device, probe_intervals,
        nx_v4l2_get_frameinterval, set_interval, answered_frame, probed_frame]
    rw [hstep]
    obtain ⟨h1, h2⟩ := ih (set_list e i (answered_frame sizes ivals i))
    refine ⟨h1, ?_⟩
    intro k
    rw [h2 k]
    by_cases hk : k ∈ rest
    · simp [hk]
    · by_cases hki : k = i
      · subst hki
        simp [hk, set_list]
      · simp [hk, hki, set_list]

/-- C14 (the code does not do what the claim says): for a device that answers the
frame-size query and both interval queries at every index, whatever it
answers, `enum_all_supported_resolutions` fills `lists[0..9]` in probe order and
leaves `lists[10]` alone, but it leaves `list_count` as it was: the loop ends at
`i = 10` without assigning it.  On the fresh all-zero entry the count stays 0,
not 10. -/
theorem prober_full_list_count_unset (env : Env) (sizes : Int → Nat × Nat)
    (ivals : Int → Nat → Nat → Nat) (e : nx_v4l2_entry) :
    (enum_all_supported_resolutions (answering_env env sizes ivals) e).list_count
      = e.list_count ∧
    (List.range MAX_SUPPORTED_RESOLUTION).map
        (enum_all_supported_resolutions (answering_env env sizes ivals) e).lists
      = (List.range MAX_SUPPORTED_RESOLUTION).map (answered_frame sizes ivals) ∧
    (enum_all_supported_resolutions (answering_env env sizes ivals) e).lists
        MAX_SUPPORTED_RESOLUTION = e.lists MAX_SUPPORTED_RESOLUTION ∧
    (enum_all_supported_resolutions (answering_env env sizes ivals) entry_zero).list_count
      = 0 := by
  have key : ∀ e1, enum_all_supported_resolutions (answering_env env sizes ivals) e1
      = probe_sizes (answering_device sizes ivals) (List.range MAX_SUPPORTED_RESOLUTION) e1 :=
    fun _ => rfl
  rw [key, key]
  obtain ⟨h1, h2⟩ := probe_sizes_all_answered sizes ivals
    (List.range MAX_SUPPORTED_RESOLUTION) e
  refine ⟨h1, ?_, ?_, ?_⟩
  · apply List.map_congr_left
    intro k hk
    rw [h2 k, if_pos hk]
  · rw [h2, if_neg (by simp)]
  · exact (probe_sizes_all_answered sizes ivals _ entry_zero).1

/-! ## The entry invariant -/

theorem first_boot_cache_reachable : Reachable first_boot_cache :=
  Reachable.print_all first_boot_env Reachable.init
    (getD_eq_some (print_all_nx_v4l2_entry first_boot_env cache_init) cache_init (by decide))

/-- C12: in every cache reachable from the all-zero cache at process start through
the public entry points (scans in any environment whose accesses stay inside the
table, `nx_v4l2_cleanup`, `nx_v4l2_enumerate`, `nx_v4l2_print_all_video_entry`
and the lookups), every entry with `exist = false` is the all-zero entry:
`is_mipi` and `interlaced` are false, the device name, the sensor name and the
node path are zero bytes, hence empty strings, `list_count` is 0 and every frame
of the list is zero. -/
theorem absent_entry_is_zero (c : nx_v4l2_entry_cache) (hr : Reachable c) (t m : Nat)
    (hx : (c.entries t m).exist = false) :
    c.entries t m = entry_zero ∧
    (c.entries t m).is_mipi = false ∧ (c.entries t m).interlaced = false ∧
    (c.entries t m).devname = zeros DEVNAME_SIZE ∧ cstr (c.entries t m).devname = [] ∧
    (c.entries t m).sensorname = zeros DEVNAME_SIZE ∧ cstr (c.entries t m).sensorname = [] ∧
    (c.entries t m).devnode = zeros DEVNODE_SIZE ∧ cstr (c.entries t m).devnode = [] ∧
    (c.entries t m).list_count = 0 ∧
    ∀ k, (c.entries t m).lists k = frame_zero := by
  have h := reachable_absent_zero hr t m hx
  rw [h]
  exact ⟨rfl, rfl, rfl, rfl, by decide, rfl, by decide, rfl, by decide, rfl, fun _ => rfl⟩

/-- Witness for C12: the absent entry clipper video 1 of the cache after the scan
of `first_boot_env`. -/
theorem absent_entry_is_zero_witness :
    first_boot_cache.entries 4 1 = entry_zero ∧
    (first_boot_cache.entries 4 1).is_mipi = false ∧
    (first_boot_cache.entries 4 1).interlaced = false ∧
    (first_boot_cache.entries 4 1).devname = zeros DEVNAME_SIZE ∧
    cstr (first_boot_cache.entries 4 1).devname = [] ∧
    (first_boot_cache.entries 4 1).sensorname = zeros DEVNAME_SIZE ∧
    cstr (first_boot_cache.entries 4 1).sensorname = [] ∧
    (first_boot_cache.entries 4 1).devnode = zeros DEVNODE_SIZE ∧
    cstr (first_boot_cache.entries 4 1).devnode = [] ∧
    (first_boot_cache.entries 4 1).list_count = 0 ∧
    ∀ k, (first_boot_cache.entries 4 1).lists k = frame_zero :=
  absent_entry_is_zero first_boot_cache first_boot_cache_reachable 4 1 (by decide)

/-! ## End-to-end scenario -/

theorem scenario_scan : enum_all_v4l2_devices scenario_env cache_init = some scenario_cache :=
  getD_eq_some _ _ (by decide)

/-- C11, counterexample: after the scan of the scenario neither clipper video 0 nor
decimator video 1 exists; the names `nx-clipper0` and `nx-decimator1` are names
of sub-devices. -/
theorem end_to_end_counterexample :
    enum_all_v4l2_devices scenario_env cache_init = some scenario_cache ∧
    (scenario_cache.entries nx_clipper_video.toNat 0).exist = false ∧
    (scenario_cache.entries nx_decimator_video.toNat 1).exist = false ∧
    get_type_by_name (bytes "nx-clipper") = nx_clipper_subdev ∧
    get_type_by_name (bytes "nx-decimator") = nx_decimator_subdev :=
  ⟨scenario_scan, by decide, by decide, by decide, by decide⟩

/-- C11 as amended: one scan of the scenario from the cache at process start
leaves clipper sub-device 0 existing with name "nx-clipper0" and node path
"/dev/nx-clipper0", decimator sub-device 1 existing with node path
"/dev/nx-decimator1", sensor 0 existing with `is_mipi = true`,
`interlaced = false` and name "ov5640", and no other entry: `foo-device3`
resolves to `NULL` and nothing is stored for it. -/
theorem end_to_end_scan :
    enum_all_v4l2_devices scenario_env cache_init = some scenario_cache ∧
    scenario_cache.cached = true ∧
    (scenario_cache.entries nx_clipper_subdev.toNat 0).exist = true ∧
    cstr (scenario_cache.entries nx_clipper_subdev.toNat 0).devname = bytes "nx-clipper0" ∧
    cstr (scenario_cache.entries nx_clipper_subdev.toNat 0).devnode = bytes "/dev/nx-clipper0" ∧
    (scenario_cache.entries nx_decimator_subdev.toNat 1).exist = true ∧
    cstr (scenario_cache.entries nx_decimator_subdev.toNat 1).devnode
      = bytes "/dev/nx-decimator1" ∧
    (scenario_cache.entries nx_sensor_subdev.toNat 0).exist = true ∧
    (scenario_cache.entries nx_sensor_subdev.toNat 0).is_mipi = true ∧
    (scenario_cache.entries nx_sensor_subdev.toNat 0).interlaced = false ∧
    cstr (scenario_cache.entries nx_sensor_subdev.toNat 0).devname = bytes "ov5640" ∧
    existing_slots scenario_cache = [(0, 0), (1, 0), (2, 1)] ∧
    find_v4l2_entry_by_name (enum_camera_sensor scenario_env cache_init)
      (bytes "foo-device3") 0 = some EntryPtr.null :=
  ⟨scenario_scan, by decide, by decide, by decide, by decide, by decide, by decide, by decide,
    by decide, by decide, by decide, by decide, by decide⟩
/-! ## Scanner bounds -/

/-- C8, counterexample: in the reachable cache after the scan of `first_boot_env`
sensor 0 exists; when its record then reads "no exist", the iteration of
`enum_camera_sensor` for index 0, the complete `enum_camera_sensor` and the
rescan after `nx_v4l2_cleanup` all leave the slot with `exist = true` (and its
MIPI flag), not with `exist = false`. -/
theorem sensor_sentinel_counterexample :
    Reachable first_boot_cache ∧
    (first_boot_cache.entries nx_sensor_subdev.toNat 0).exist = true ∧
    sensor_gone_env.sensor_info 0 = FileRead.data (bytes "no exist") ∧
    ((enum_camera_sensor_iter sensor_gone_env 0 first_boot_cache).entries
      nx_sensor_subdev.toNat 0).exist = true ∧
    ((enum_camera_sensor sensor_gone_env (nx_v4l2_cleanup first_boot_cache)).entries
      nx_sensor_subdev.toNat 0).exist = true ∧
    print_all_nx_v4l2_entry sensor_gone_env (nx_v4l2_cleanup first_boot_cache)
      = some sensor_gone_cache ∧
    (sensor_gone_cache.entries nx_sensor_subdev.toNat 0).exist = true ∧
    (sensor_gone_cache.entries nx_sensor_subdev.toNat 0).is_mipi = true :=
  ⟨first_boot_cache_reachable, by decide, by decide, by decide, by decide,
    getD_eq_some _ _ (by decide), by decide, by decide⟩

/-! ## Capability flags on scanned caches -/

/-- Witness for C10: sensor 0 of the cache after the scan of `first_boot_env`, which
exists with `is_mipi = true`, and sensor 1 of the cache after a scan, a cleanup
and a rescan, which is absent. -/
theorem camera_flags_default_false_witness :
    ((first_boot_cache.entries nx_sensor_subdev.toNat (0 : Int).toNat).exist = true ∧
      (first_boot_cache.entries nx_sensor_subdev.toNat (0 : Int).toNat).is_mipi = true ∧
      nx_v4l2_is_mipi_camera first_boot_cache 0 = some true) ∧
    (nx_v4l2_is_mipi_camera first_boot_cache 0
        = some (first_boot_cache.entries nx_sensor_subdev.toNat (0 : Int).toNat).is_mipi ∧
      nx_v4l2_is_interlaced_camera first_boot_cache 0
        = some (first_boot_cache.entries nx_sensor_subdev.toNat (0 : Int).toNat).interlaced ∧
      ((first_boot_cache.entries nx_sensor_subdev.toNat (0 : Int).toNat).exist = false →
        nx_v4l2_is_mipi_camera first_boot_cache 0 = some false ∧
        nx_v4l2_is_interlaced_camera first_boot_cache 0 = some false)) ∧
    (renumbered_cache.entries nx_sensor_subdev.toNat (1 : Int).toNat).exist = false ∧
    (nx_v4l2_is_mipi_camera renumbered_cache 1
        = some (renumbered_cache.entries nx_sensor_subdev.toNat (1 : Int).toNat).is_mipi ∧
      nx_v4l2_is_interlaced_camera renumbered_cache 1
        = some (renumbered_cache.entries nx_sensor_subdev.toNat (1 : Int).toNat).interlaced ∧
      ((renumbered_cache.entries nx_sensor_subdev.toNat (1 : Int).toNat).exist = false →
        nx_v4l2_is_mipi_camera renumbered_cache 1 = some false ∧
        nx_v4l2_is_interlaced_camera renumbered_cache 1 = some false)) :=
  ⟨⟨by decide, by decide, by decide⟩,
    camera_flags_default_false first_boot_cache first_boot_cache_reachable 0
      (by decide) (by decide),
    by decide,
    camera_flags_default_false renumbered_cache renumbered_cache_reachable 1
      (by decide) (by decide)⟩

/-! ## Names that carry their instance index -/

theorem same_environment_refl (env : Env) : same_environment env env := by
  refine ⟨rfl, rfl, rfl, ?_⟩
  induction env.dir with
  | nil => exact List.Forall₂.nil
  | cons a l ih => exact List.Forall₂.cons ⟨rfl, rfl, rfl⟩ ih

end NxV4l2
